import Mathlib

/-!
Arduino-Debug: a shallow embedding of `Debug.cpp` / `Debug.h`

The console writes text to a transport and reads bytes from it.  Text is
`List Char` (one `Char` per byte), addresses are natural numbers, the target's
16-bit `int` is an `Int` wrapped by `toInt16`, and `uint16_t` / `size_t` values
are natural numbers reduced modulo `2^16` where the code can overflow.
-/

namespace ArduinoDebug

/-! ## Arduino core `Print` (external library used by every `print` call) -/

/-- Character of one digit as written by `Print::printNumber`:
`c < 10 ? c + '0' : c + 'A' - 10`. -/
def digitChar (c : Nat) : Char :=
  if c < 10 then Char.ofNat (c + 48) else Char.ofNat (c + 55)

/-- Loop of `Print::printNumber`: `do { c = n % base; n /= base; *--str = digit c; } while (n)`.
The fuel is the number of buffer positions left (`8 * sizeof(long)` in all). -/
def printNumberLoop : Nat → Nat → Nat → List Char → List Char
  | 0, _, _, acc => acc
  | fuel + 1, n, base, acc =>
    if n / base = 0 then digitChar (n % base) :: acc
    else printNumberLoop fuel (n / base) base (digitChar (n % base) :: acc)

/-- Arduino `Print::printNumber(unsigned long n, uint8_t base)`: the digits of `n`,
most significant first, no leading zeros, letters in upper case; a base below 2
is replaced by 10. -/
def printNumber (n base : Nat) : List Char :=
  printNumberLoop 32 (n % 4294967296) (if base < 2 then 10 else base) []

/-- Arduino `Print::print(unsigned long n, int base)` for a non-zero base, which is
what `print(uint8_t)`, `print(uint16_t, HEX)` and `print(size_t)` forward to. -/
def printUnsigned (n base : Nat) : List Char := printNumber n base

/-- Arduino `Print::print(long n, int base)` for a non-zero base, which is what
`print(int)` and `print(int, HEX)` forward to: base 10 prints a sign and the
magnitude, any other base prints the 32-bit two-complement pattern. -/
def printLong (n : Int) (base : Nat) : List Char :=
  if base = 10 then
    if n < 0 then '-' :: printNumber (-n).toNat 10 else printNumber n.toNat 10
  else printNumber (n % 4294967296).toNat base

/-- Arduino `Print::println()` writes a carriage return and a line feed. -/
def newline : List Char := ['\r', '\n']

/-- The `DEC` base constant of the Arduino core. -/
def DEC : Nat := 10

/-- The `HEX` base constant of the Arduino core. -/
def HEX : Nat := 16

/-- A C string seen through a `const char*`: the characters before the first NUL. -/
def cstr (s : List Char) : List Char := s.takeWhile (fun c => c != '\x00')

/-! ## Machine integers of the AVR target -/

/-- Conversion to the 16-bit `int` of the target (two-complement wrap). -/
def toInt16 (x : Int) : Int := (x + 32768) % 65536 - 32768

/-- Conversion to `uint16_t` / `size_t` (16 bits on the target). -/
def toUInt16 (x : Int) : Nat := (x % 65536).toNat

/-! ## `Debug::dump` -/

/-- Text written before the first byte of a line: `print(F("0x")); print(src, HEX); print(F(": "))`. -/
def dumpHead (src : Nat) : List Char :=
  "0x".toList ++ printUnsigned src HEX ++ ": ".toList

/-- The two prints of one byte: `print(d >> 4, HEX); print(d & 0x0F, HEX)`. -/
def dumpByte (d : Nat) : List Char :=
  printLong (Int.ofNat (d / 16)) HEX ++ printLong (Int.ofNat (d % 16)) HEX

/-- Loop `while (size--) { ... }` of `Debug::dump`.  `mem` is the memory read
through `p`, `n` the `uint8_t` column counter, `src` the `uint16_t` address shown. -/
def dumpLoop (mem : Nat → Nat) : Nat → Nat → Nat → Nat → List Char
  | 0, _, _, n => if n ≠ 0 then newline else []
  | size + 1, src, p, n =>
    let d := mem p % 256
    let src1 := (src + 1) % 65536
    let n1 := (n + 1) % 256
    dumpByte d ++
      (if n1 < 16 then
        ' ' :: dumpLoop mem size src1 (p + 1) n1
      else
        newline ++ (if size > 0 then dumpHead src1 else []) ++
          dumpLoop mem size src1 (p + 1) 0)

/-- Model of `Debug::dump(uint16_t src, const void* ptr, size_t size)`: the text it writes. -/
def dump (mem : Nat → Nat) (src ptr size : Nat) : List Char :=
  dumpHead src ++ dumpLoop mem size src ptr 0

/-! ## Strings of the C library -/

/-- The NUL character that ends a C string. -/
def NUL : Char := '\x00'

/-- Model of `strncmp(s1, s2, n)` (and `strncmp_P`): compares at most `n`
characters as unsigned bytes and stops at a NUL; the end of a list is the
terminating NUL.  The result is zero exactly when no difference was met. -/
def strncmp : List Char → List Char → Nat → Int
  | _, _, 0 => 0
  | s1, s2, n + 1 =>
    if s1.headD NUL ≠ s2.headD NUL then
      Int.ofNat (s1.headD NUL).toNat - Int.ofNat (s2.headD NUL).toNat
    else if s1.headD NUL = NUL then 0
    else strncmp s1.tail s2.tail n

/-- Model of `strcmp(s1, s2)` (and `strcmp_P`). -/
def strcmp : List Char → List Char → Int
  | [], s2 => 0 - Int.ofNat (s2.headD NUL).toNat
  | c1 :: s1, s2 =>
    if c1 ≠ s2.headD NUL then Int.ofNat c1.toNat - Int.ofNat (s2.headD NUL).toNat
    else if c1 = NUL then 0
    else strcmp s1 s2.tail

/-! ## Data model -/

/-- A string reached through a `const char*`: the pointer value and the
characters before the terminating NUL (the null pointer has address 0 and no
characters).  `Debug::do_backtrace` compares the pointers, not the characters. -/
structure CString where
  addr : Nat
  chars : List Char
deriving DecidableEq, Repr

/-- Model of `Debug::Variable`.  The `m_next` link is the tail of the list the
descriptor sits in; `self` is the address of the descriptor object (`this`). -/
structure Variable where
  self : Nat
  m_func : CString
  m_name : List Char
  m_ref : Nat
  m_size : Nat
deriving DecidableEq, Repr

/-- The `DEBUG_NO_*` preprocessor symbols; `true` means the symbol is defined.
`NO_PRINT_REGISTER` is tested by the help text only. -/
structure Config where
  NO_BACKTRACE : Bool
  NO_LOOKUP_VARIABLES : Bool
  NO_MEMORY_USAGE : Bool
  NO_PRINT_COMMANDS : Bool
  NO_PRINT_DATA : Bool
  NO_PRINT_HEAP : Bool
  NO_PRINT_STACK : Bool
  NO_PRINT_VARIABLES : Bool
  NO_QUIT : Bool
  NO_WHERE : Bool
  NO_PRINT_REGISTER : Bool
deriving DecidableEq, Repr

/-- The default configuration: no `DEBUG_NO_*` symbol is defined. -/
def Config.default : Config :=
  ⟨false, false, false, false, false, false, false, false, false, false, false⟩

/-- What the console reads from the target: the `RAMSTART` and `RAMEND`
constants of the device header, the address of `__heap_start`, the value of
`__brkval`, and the bytes of memory. -/
structure Platform where
  RAMSTART : Int
  RAMEND : Int
  heap_start : Nat
  brkval : Nat
  mem : Nat → Nat

/-- The branch of the command chain of `Debug::run` a line selects. -/
inductive Action where
  | resume
  | backtrace
  | data
  | heap
  | memory
  | commands
  | stack
  | variables
  | quit
  | location
  | lookup
  | unknown
deriving DecidableEq, Repr

/-- The null pointer. -/
def NULL : Nat := 0

/-- Model of the `Debug` object together with what it has written.
`m_dev` is the `Stream*` (`NULL` when unattached), `m_var` the chain of
registered descriptors starting at the last registered one.  `out` is the text
written to the transport so far.  `calls` is an observation log, not a member of
the class: the branches of the command chain taken so far, oldest first. -/
structure Debug where
  m_dev : Nat
  m_var : List Variable
  DATAEND : Int
  DATASIZE : Int
  out : List Char
  calls : List Action
deriving DecidableEq, Repr

/-- State after the constructor `Debug()`. -/
def Debug.init : Debug := ⟨NULL, [], 0, 0, [], []⟩

/-- Writing text through `write` (used where `m_dev` is known to be attached). -/
def Debug.emit (d : Debug) (s : List Char) : Debug := { d with out := d.out ++ s }

/-- Appending to the observation log. -/
def Debug.note (d : Debug) (a : Action) : Debug := { d with calls := d.calls ++ [a] }

/-- How a call ends: a normal return with a value, `exit(0)`, waiting for input
that never comes (the pending line is kept), or undefined behaviour (a write
through a null `m_dev`, or a store outside the line buffer). -/
inductive Outcome (α : Type) where
  | returned (a : α)
  | exited
  | waiting (pending : List Char)
  | undefined
deriving DecidableEq, Repr

/-- Result of a call: how it ended, the console afterwards, and the values
`read()` has not yet returned. -/
structure Result (α : Type) where
  outcome : Outcome α
  d : Debug
  rest : List Int

/-! ## Memory access -/

/-- The byte at an address (`*((uint8_t*) a)`). -/
def read8 (mem : Nat → Nat) (a : Nat) : Nat := mem a % 256

/-- The little-endian 16-bit word at an address (`*((uint16_t*) a)`). -/
def read16 (mem : Nat → Nat) (a : Nat) : Nat := read8 mem a + 256 * read8 mem (a + 1)

/-- Value of `sizeof(void*)` on the AVR target. -/
def sizeof_ptr : Nat := 2

/-- Value of `HEAPEND` as computed in `check_stack`, `do_memory_usage` and
`do_print_heap`: `(__brkval == 0 ? (int) &__heap_start : (int) __brkval)`. -/
def HEAPEND (pf : Platform) : Int :=
  if pf.brkval = 0 then toInt16 (Int.ofNat pf.heap_start) else toInt16 (Int.ofNat pf.brkval)

/-! ## Entry points that do not run a session -/

/-- Model of `Debug::check_stack(int room)`; `marker` is the address of the local
variable `marker`. -/
def check_stack (pf : Platform) (marker : Nat) (room : Int) : Bool :=
  decide (toInt16 (Int.ofNat marker) > toInt16 (HEAPEND pf + room))

/-- Model of `Debug::end()`: the returned flag and the console afterwards
(the `delay(1000)` has no effect on the state). -/
def Debug.end_ (d : Debug) : Bool × Debug :=
  if d.m_dev = NULL then (false, d)
  else (true, { d.emit ("Debug::end".toList ++ newline) with m_dev := NULL })

/-! ## Command handlers -/

/-- Text of `print(const char*)`: nothing for a null pointer. -/
def printStr (s : Option CString) : List Char :=
  match s with
  | none => []
  | some c => c.chars

/-- Model of `Debug::Variable::print(bool is_pointer)`: the text it writes. -/
def Variable.print (pf : Platform) (v : Variable) (is_pointer : Bool) : List Char :=
  v.m_func.chars ++ [':'] ++ v.m_name ++ ['@'] ++ "0x".toList ++
    printLong (toInt16 (Int.ofNat v.m_ref)) HEX ++
  (if v.m_size = sizeof_ptr ∧ is_pointer = true then
    "=>".toList ++ dump pf.mem (read16 pf.mem v.m_ref) (read16 pf.mem v.m_ref) 16
  else if v.m_size = 1 then
    ['='] ++ printUnsigned (read8 pf.mem v.m_ref) DEC ++ " (0x".toList ++
      printUnsigned (read8 pf.mem v.m_ref) HEX ++ [')'] ++ newline
  else if v.m_size = 2 then
    ['='] ++ printLong (toInt16 (Int.ofNat (read16 pf.mem v.m_ref))) DEC ++ " (0x".toList ++
      printUnsigned (read16 pf.mem v.m_ref) HEX ++ [')'] ++ newline
  else
    ['['] ++ printUnsigned v.m_size DEC ++ "]:".toList ++
      (if v.m_size > 16 then newline else []) ++
      dump pf.mem (v.m_ref % 65536) v.m_ref v.m_size)

/-- The value of a `const char*` argument: `NULL` for the null pointer, the
address of the string otherwise. -/
def ptrValue (s : Option CString) : Nat :=
  match s with
  | none => NULL
  | some c => c.addr

/-- Model of `Debug::do_backtrace(const char* func)`: the text it writes for the
chain `m_var`.  `func` is the value of the pointer compared with `vp->m_func`
(`NULL` for the null pointer); the test `func != vp->m_func` compares pointer
values, and `func = vp->m_func` is assigned when they differ. -/
def do_backtrace : Nat → List Variable → List Char
  | _, [] => []
  | func, vp :: next =>
    if func ≠ vp.m_func.addr then
      "0x".toList ++ printLong (toInt16 (Int.ofNat vp.self)) HEX ++ [':'] ++
        vp.m_func.chars ++ newline ++ do_backtrace vp.m_func.addr next
    else do_backtrace func next

/-- Model of `Debug::do_lookup_variables(const char* name, bool is_pointer)`: the
returned `found` flag and the text written. -/
def do_lookup_variables (pf : Platform) (name : List Char) (is_pointer : Bool) :
    List Variable → Bool × List Char
  | [] => (false, [])
  | vp :: next =>
    if strcmp name vp.m_name = 0 then
      (true,
        (if is_pointer = false ∨ vp.m_size = sizeof_ptr then vp.print pf is_pointer else []) ++
          (do_lookup_variables pf name is_pointer next).2)
    else do_lookup_variables pf name is_pointer next

/-- Model of `Debug::do_memory_usage(int marker)`: the text it writes. -/
def do_memory_usage (pf : Platform) (d : Debug) (marker : Int) : List Char :=
  "data=".toList ++ printLong d.DATASIZE DEC ++
  ",heap=".toList ++ printLong (toInt16 (HEAPEND pf - toInt16 (Int.ofNat pf.heap_start))) DEC ++
  ",stack=".toList ++ printLong (toInt16 (toInt16 (pf.RAMEND - marker) + 1)) DEC ++
  ",free=".toList ++ printLong (toInt16 (marker - HEAPEND pf)) DEC ++ newline

/-- Model of the `help` text of `Debug::do_print_commands()`. -/
def do_print_commands (cfg : Config) : List Char :=
  (if !cfg.NO_LOOKUP_VARIABLES then
    "?VARIABLE -- Print variable(s)\n@VARIABLE -- Print pointer variable(s)\n".toList else []) ++
  (if !cfg.NO_BACKTRACE then "backtrace -- Print call stack\n".toList else []) ++
  (if !cfg.NO_PRINT_DATA then "data -- Print data\n".toList else []) ++
  "go -- Return to sketch\n".toList ++
  (if !cfg.NO_PRINT_HEAP then "heap -- Print heap\n".toList else []) ++
  (if !cfg.NO_MEMORY_USAGE then "memory -- Print memory usage\n".toList else []) ++
  (if !cfg.NO_QUIT then "quit -- Exit sketch\n".toList else []) ++
  (if !cfg.NO_PRINT_STACK then "stack -- Print stack\n".toList else []) ++
  (if !cfg.NO_PRINT_REGISTER then "variables -- Print variables\n".toList else []) ++
  (if !cfg.NO_WHERE then "where -- Location in source code\n".toList else [])

/-- Model of `Debug::do_print_data()`: the text it writes. -/
def do_print_data (pf : Platform) (d : Debug) : List Char :=
  dump pf.mem (toUInt16 pf.RAMSTART) (toUInt16 pf.RAMSTART) (toUInt16 d.DATASIZE)

/-- Model of `Debug::do_print_heap()`: the text it writes. -/
def do_print_heap (pf : Platform) : List Char :=
  if toInt16 (HEAPEND pf - toInt16 (Int.ofNat pf.heap_start)) = 0 then []
  else dump pf.mem (toUInt16 (toInt16 (Int.ofNat pf.heap_start)))
    (toUInt16 (toInt16 (Int.ofNat pf.heap_start)))
    (toUInt16 (toInt16 (HEAPEND pf - toInt16 (Int.ofNat pf.heap_start))))

/-- Model of `Debug::do_print_stack(int marker)`: the text it writes. -/
def do_print_stack (pf : Platform) (marker : Int) : List Char :=
  if toInt16 (toInt16 (pf.RAMEND - marker) + 1) = 0 then []
  else dump pf.mem (toUInt16 marker) (toUInt16 marker)
    (toUInt16 (toInt16 (toInt16 (pf.RAMEND - marker) + 1)))

/-- Model of `Debug::do_print_variables()`: the text it writes. -/
def do_print_variables (pf : Platform) : List Variable → List Char
  | [] => []
  | vp :: next => vp.print pf false ++ do_print_variables pf next

/-! ## The session loop `Debug::run` -/

/-- The prompt `F("(debug) ")`. -/
def prompt : List Char := "(debug) ".toList

/-- The character stored by `*bp++ = c` for an `int c`. -/
def toChar (c : Int) : Char := Char.ofNat (c % 256).toNat

/-- The chain of `strncmp_P` tests of `Debug::run` (source order), for a line
`buf` of `len = bp - buf` stored characters, `len ≠ 0`: the branch taken. -/
def dispatch (cfg : Config) (buf : List Char) : Action :=
  if strncmp buf "go".toList buf.length = 0 then Action.resume
  else if !cfg.NO_BACKTRACE ∧ strncmp buf "backtrace".toList buf.length = 0 then Action.backtrace
  else if !cfg.NO_PRINT_DATA ∧ strncmp buf "data".toList buf.length = 0 then Action.data
  else if !cfg.NO_PRINT_HEAP ∧ strncmp buf "heap".toList buf.length = 0 then Action.heap
  else if !cfg.NO_MEMORY_USAGE ∧ strncmp buf "memory".toList buf.length = 0 then Action.memory
  else if !cfg.NO_PRINT_COMMANDS ∧
      (strncmp buf "commands".toList buf.length = 0 ∨ strncmp buf "help".toList buf.length = 0) then
    Action.commands
  else if !cfg.NO_PRINT_STACK ∧ strncmp buf "stack".toList buf.length = 0 then Action.stack
  else if !cfg.NO_PRINT_VARIABLES ∧ strncmp buf "variables".toList buf.length = 0 then
    Action.variables
  else if !cfg.NO_QUIT ∧ strncmp buf "quit".toList buf.length = 0 then Action.quit
  else if !cfg.NO_WHERE ∧ strncmp buf "where".toList buf.length = 0 then Action.location
  else if !cfg.NO_LOOKUP_VARIABLES ∧ (buf.headD NUL = '?' ∨ buf.headD NUL = '@') then
    Action.lookup
  else Action.unknown

/-- How the body of the session loop ends for one line. -/
inductive Flow where
  | again
  | leave
  | halt
deriving DecidableEq, Repr

/-- The body of the branch a line selected: what is written, and whether the
loop continues, returns, or the process exits.  `marker` is the address of the
local `marker` of `run`; `file`, `line`, `func` are the arguments of `run`. -/
def exec (cfg : Config) (pf : Platform) (marker : Nat) (file : Option CString) (line : Int)
    (func : Option CString) (buf : List Char) (d : Debug) : Action → Flow × Debug
  | Action.resume => (Flow.leave, d.note Action.resume)
  | Action.backtrace =>
    (Flow.again, (d.note Action.backtrace).emit
      ("0x".toList ++ printLong (toInt16 (Int.ofNat marker)) HEX ++ [':'] ++ printStr func ++
        newline ++ do_backtrace (ptrValue func) d.m_var))
  | Action.data => (Flow.again, (d.note Action.data).emit (do_print_data pf d))
  | Action.heap => (Flow.again, (d.note Action.heap).emit (do_print_heap pf))
  | Action.memory =>
    (Flow.again, (d.note Action.memory).emit (do_memory_usage pf d (toInt16 (Int.ofNat marker))))
  | Action.commands => (Flow.again, (d.note Action.commands).emit (do_print_commands cfg))
  | Action.stack =>
    (Flow.again, (d.note Action.stack).emit (do_print_stack pf (toInt16 (Int.ofNat marker))))
  | Action.variables =>
    (Flow.again, (d.note Action.variables).emit (do_print_variables pf d.m_var))
  | Action.quit => (Flow.halt, ((d.note Action.quit).end_).2)
  | Action.location =>
    (Flow.again, (d.note Action.location).emit
      (printStr file ++ [':'] ++ printLong line DEC ++ [':'] ++ printStr func ++ newline))
  | Action.lookup =>
    (Flow.again, (d.note Action.lookup).emit
      ((do_lookup_variables pf (cstr buf.tail) (buf.headD NUL == '@') d.m_var).2 ++
        (if (do_lookup_variables pf (cstr buf.tail) (buf.headD NUL == '@') d.m_var).1 = false then
          cstr buf.tail ++ ": unknown variable".toList ++ newline
        else [])))
  | Action.unknown => (Flow.again, d.emit (cstr buf ++ ": unknown command".toList ++ newline))

/-- The `while (1)` loops of `Debug::run`, one `read()` result at a time.
`buf` holds the characters stored so far in the 32-byte line buffer; the prompt
of the current line has been written already.  A list that ends leaves the
console waiting (`read()` keeps reporting no data and the code yields). -/
def runLoop (cfg : Config) (pf : Platform) (marker : Nat) (file : Option CString) (line : Int)
    (func : Option CString) : List Int → List Char → Debug → Result Unit
  | [], buf, d => ⟨Outcome.waiting buf, d, []⟩
  | c :: rest, buf, d =>
    if c = 13 ∨ c = 10 then
      if 32 ≤ buf.length then ⟨Outcome.undefined, d.emit newline, rest⟩
      else if buf.length = 0 then
        runLoop cfg pf marker file line func rest [] ((d.emit newline).emit prompt)
      else
        match exec cfg pf marker file line func buf (d.emit newline) (dispatch cfg buf) with
        | (Flow.again, d1) => runLoop cfg pf marker file line func rest [] (d1.emit prompt)
        | (Flow.leave, d1) => ⟨Outcome.returned (), d1, rest⟩
        | (Flow.halt, d1) => ⟨Outcome.exited, d1, rest⟩
    else if c > 0 then
      if 32 ≤ buf.length then ⟨Outcome.undefined, d, rest⟩
      else runLoop cfg pf marker file line func rest (buf ++ [toChar c]) (d.emit [toChar c])
    else runLoop cfg pf marker file line func rest buf d

/-- Text written by `run` before the loop: the location and the expression. -/
def runHead (line : Int) (func : Option CString) (expr : Option (List Char)) : List Char :=
  (match func with
    | some f => [':'] ++ f.chars ++ [':'] ++ printLong line DEC
    | none => []) ++
  (match expr with
    | some e => [':'] ++ e
    | none => []) ++
  (match func with
    | some _ => newline
    | none => [])

/-- Model of `Debug::run(file, line, func, expr)` on the values `inp` that
successive `read()` calls return.  Every write goes through `m_dev`, so a null
`m_dev` is undefined behaviour at the first `print`. -/
def run (cfg : Config) (pf : Platform) (marker : Nat) (file : Option CString) (line : Int)
    (func : Option CString) (expr : Option (List Char)) (inp : List Int) (d : Debug) :
    Result Unit :=
  if d.m_dev = NULL then ⟨Outcome.undefined, d, inp⟩
  else runLoop cfg pf marker file line func inp [] ((d.emit (runHead line func expr)).emit prompt)

/-! ## Entry points that run a session -/

/-- The banner written by `Debug::begin`. -/
def banner : List Char :=
  ("Arduino Debug (AVR) 1.0a3, Copyright (C) 2015-2016, Mikael Patel\n" ++
    "For help, type \"help\".\nDebug::begin:").toList

/-- The assignments of `Debug::begin`: `m_dev = dev`, `DATAEND = (int) &__heap_start`,
`DATASIZE = DATAEND - RAMSTART`. -/
def Debug.attach (pf : Platform) (dev : Nat) (d : Debug) : Debug :=
  { d with m_dev := dev, DATAEND := toInt16 (Int.ofNat pf.heap_start),
           DATASIZE := toInt16 (toInt16 (Int.ofNat pf.heap_start) - pf.RAMSTART) }

/-- Model of `Debug::begin(dev, file, line, func)`; `dev` is the `Stream*` given. -/
def Debug.begin (cfg : Config) (pf : Platform) (marker : Nat) (dev : Nat)
    (file : Option CString) (line : Int) (func : Option CString) (inp : List Int) (d : Debug) :
    Result Bool :=
  if d.m_dev ≠ NULL then ⟨Outcome.returned false, d, inp⟩
  else
    match run cfg pf marker file line func none inp ((d.attach pf dev).emit banner) with
    | ⟨Outcome.returned _, d1, rest⟩ => ⟨Outcome.returned true, d1, rest⟩
    | ⟨Outcome.exited, d1, rest⟩ => ⟨Outcome.exited, d1, rest⟩
    | ⟨Outcome.waiting b, d1, rest⟩ => ⟨Outcome.waiting b, d1, rest⟩
    | ⟨Outcome.undefined, d1, rest⟩ => ⟨Outcome.undefined, d1, rest⟩

/-- Model of `Debug::assert(file, line, func, cond)`: after the session returns,
`end()` is called and the process exits. -/
def Debug.assert (cfg : Config) (pf : Platform) (marker : Nat)
    (file : Option CString) (line : Int) (func : Option CString) (cond : Option (List Char))
    (inp : List Int) (d : Debug) : Result Unit :=
  if d.m_dev = NULL then ⟨Outcome.undefined, d, inp⟩
  else
    match run cfg pf marker file line func cond inp (d.emit "Debug::assert".toList) with
    | ⟨Outcome.returned _, d1, rest⟩ => ⟨Outcome.exited, (d1.end_).2, rest⟩
    | r => r

/-- Model of `Debug::break_at(file, line, func, cond)`. -/
def Debug.break_at (cfg : Config) (pf : Platform) (marker : Nat)
    (file : Option CString) (line : Int) (func : Option CString) (cond : Option (List Char))
    (inp : List Int) (d : Debug) : Result Unit :=
  if d.m_dev = NULL then ⟨Outcome.undefined, d, inp⟩
  else run cfg pf marker file line func cond inp (d.emit "Debug::break_at".toList)

/-! ## Vocabulary of the statements -/

/-- The characters `run` stores for a run of `read()` results without a line
terminator: the values above zero, each converted to `char`. -/
def stored (ks : List Int) : List Char := (ks.filter (fun c => decide (c > 0))).map toChar

/-- The command names tested by the chain of `Debug::run`, in source order, each
with the branch it guards; a name is absent when its `DEBUG_NO_*` symbol is defined. -/
def commandTable (cfg : Config) : List (List Char × Action) :=
  [("go".toList, Action.resume)] ++
  (if cfg.NO_BACKTRACE then [] else [("backtrace".toList, Action.backtrace)]) ++
  (if cfg.NO_PRINT_DATA then [] else [("data".toList, Action.data)]) ++
  (if cfg.NO_PRINT_HEAP then [] else [("heap".toList, Action.heap)]) ++
  (if cfg.NO_MEMORY_USAGE then [] else [("memory".toList, Action.memory)]) ++
  (if cfg.NO_PRINT_COMMANDS then []
    else [("commands".toList, Action.commands), ("help".toList, Action.commands)]) ++
  (if cfg.NO_PRINT_STACK then [] else [("stack".toList, Action.stack)]) ++
  (if cfg.NO_PRINT_VARIABLES then [] else [("variables".toList, Action.variables)]) ++
  (if cfg.NO_QUIT then [] else [("quit".toList, Action.quit)]) ++
  (if cfg.NO_WHERE then [] else [("where".toList, Action.location)])

/-- A sample target for concrete runs: RAM from `0x100` to `0x8FF`, heap start at
`0x200`, break value `0x208`, every byte of memory zero. -/
def demoPlatform : Platform := ⟨0x100, 0x8FF, 0x200, 0x208, fun _ => 0⟩

/-- A sample attached console (stream at address 1) with an empty registry. -/
def demoConsole : Debug := ⟨1, [], 0x200, 0x100, [], []⟩

/-- The values `inp` consumed up to `rest` end with a terminated line that selects
the resume branch: `inp = pre ++ ks ++ t :: rest` where `t` is a line terminator,
`ks` has none, `pre` is empty or ends with a terminator, and the stored line (`buf`
holds what was stored before `inp` when `pre` is empty) is non-empty. -/
def EndsWithGoLine (cfg : Config) (inp : List Int) (buf : List Char) (rest : List Int) : Prop :=
  ∃ (pre ks : List Int) (t : Int),
    inp = pre ++ ks ++ t :: rest ∧ (t = 13 ∨ t = 10) ∧ (∀ c ∈ ks, c ≠ 13 ∧ c ≠ 10) ∧
    (pre = [] ∨ ∃ (p : List Int) (e : Int), pre = p ++ [e] ∧ (e = 13 ∨ e = 10)) ∧
    ((if pre = [] then buf else []) ++ stored ks ≠ []) ∧
    dispatch cfg ((if pre = [] then buf else []) ++ stored ks) = Action.resume

/-- Text of `cnt` consecutive bytes of one dump line, the first byte at address `p`
in column `n`: each byte is two hexadecimal digits, followed by a space unless
the byte fills column 16. -/
def dumpRowFrom (mem : Nat → Nat) (p n cnt : Nat) : List Char :=
  (List.range cnt).flatMap
    (fun j => dumpByte (mem (p + j) % 256) ++ (if n + j + 1 < 16 then [' '] else []))

/-- Text of a dump line of `cnt` bytes after its address head and before its
line end. -/
def dumpRow (mem : Nat → Nat) (p cnt : Nat) : List Char := dumpRowFrom mem p 0 cnt

/-- The hexadecimal digits of a 16-bit value, most significant first, upper case,
without leading zeros: one to four digits. -/
def hexDigits16 (a : Nat) : List Char :=
  if a < 16 then [digitChar a]
  else if a < 256 then [digitChar (a / 16), digitChar (a % 16)]
  else if a < 4096 then [digitChar (a / 256), digitChar (a / 16 % 16), digitChar (a % 16)]
  else [digitChar (a / 4096), digitChar (a / 256 % 16), digitChar (a / 16 % 16),
    digitChar (a % 16)]

/-- A constructed `Debug::Variable` object: the descriptor and its `m_next` link,
which is the chain `debug.m_var` held when the object was constructed. -/
structure VariableObject where
  var : Variable
  m_next : List Variable
deriving DecidableEq, Repr

/-- Model of the constructor `Variable(func, name, ref, size)`: `m_next(debug.m_var)`
in the initialiser list, then `debug.m_var = this`. -/
def Variable.construct (v : Variable) (d : Debug) : VariableObject × Debug :=
  (⟨v, d.m_var⟩, { d with m_var := v :: d.m_var })

/-- Model of the destructor `~Variable()`: `debug.m_var = m_next`. -/
def VariableObject.destruct (o : VariableObject) (d : Debug) : Debug :=
  { d with m_var := o.m_next }

/-- A step of a program that registers variables in nested scopes: entering a
scope constructs a descriptor, leaving a scope destroys one. -/
inductive ScopeOp where
  | enter (v : Variable)
  | leave
deriving DecidableEq, Repr

/-- Runs scope steps in strict LIFO order: `live` holds the constructed objects
not yet destroyed, most recent first, and `leave` destroys the most recent one.
Leaving with no live object is not a program (`none`). -/
def runScopes : List ScopeOp → List VariableObject → Debug → Option (List VariableObject × Debug)
  | [], live, d => some (live, d)
  | ScopeOp.enter v :: ops, live, d => runScopes ops ((v.construct d).1 :: live) (v.construct d).2
  | ScopeOp.leave :: _, [], _ => none
  | ScopeOp.leave :: ops, o :: live, d => runScopes ops live (o.destruct d)

/-- The live objects `live` (most recent first) were constructed one after the
other on top of the chain `base`, and `cur` is the chain they head. -/
def LinkedOn (base : List Variable) : List VariableObject → List Variable → Prop
  | [], cur => cur = base
  | o :: live, cur => cur = o.var :: o.m_next ∧ LinkedOn base live o.m_next

/-- A sample registry: `x` (2 bytes) registered in `loop`, then `p` (2 bytes) and a
second `x` (1 byte) registered in `f`; the last registered comes first. -/
def demoRegistry : List Variable :=
  [⟨0x8D0, ⟨3, "f".toList⟩, "x".toList, 0x8E2, 1⟩,
   ⟨0x8D8, ⟨3, "f".toList⟩, "p".toList, 0x8E4, 2⟩,
   ⟨0x8E8, ⟨2, "loop".toList⟩, "x".toList, 0x8F0, 2⟩]

/-- Memory of the sample runs: the word at `0x8F0` holds 10, the byte at `0x8E2`
holds 7, everything else is zero. -/
def demoMem : Nat → Nat := fun a => if a = 0x8F0 then 10 else if a = 0x8E2 then 7 else 0

/-- The sample target with the sample memory. -/
def demoPlatform2 : Platform := ⟨0x100, 0x8FF, 0x200, 0x208, demoMem⟩

/-- The sample attached console holding the sample registry. -/
def demoConsole2 : Debug := ⟨1, demoRegistry, 0x200, 0x100, [], []⟩
/-- The `data` number `do_memory_usage` prints: `DATASIZE`. -/
def usageData (d : Debug) : Int := d.DATASIZE

/-- The `heap` number `do_memory_usage` prints: `HEAPEND - (int) &__heap_start`. -/
def usageHeap (pf : Platform) : Int :=
  toInt16 (HEAPEND pf - toInt16 (Int.ofNat pf.heap_start))

/-- The `stack` number `do_memory_usage` prints: `RAMEND - marker + 1`. -/
def usageStack (pf : Platform) (marker : Int) : Int :=
  toInt16 (toInt16 (pf.RAMEND - marker) + 1)

/-- The `free` number `do_memory_usage` prints: `marker - HEAPEND`. -/
def usageFree (pf : Platform) (marker : Int) : Int := toInt16 (marker - HEAPEND pf)

/-- The address `a` lies in the region of `len` bytes that starts at `start`. -/
def inRegion (start len a : Int) : Prop := start ≤ a ∧ a < start + len

/-- A target with the heap in external memory: RAM from `0x200` to `0x21FF`,
`__heap_start` at `0x300`, break value `0x9000`. -/
def xmemPlatform : Platform := ⟨0x200, 0x21FF, 0x300, 0x9000, fun _ => 0⟩
/-- Memory in which the 2-byte word at `0x8F0` holds 40000 (`0x9C40`). -/
def demoMemHigh : Nat → Nat := fun a => if a = 0x8F0 then 0x40 else if a = 0x8F1 then 0x9C else 0
/-- The descriptors at which the owning function changes along the walk of the
registry: a descriptor is kept when its `m_func` pointer differs from that of the
descriptor before it, the first one being compared with the pointer `func`. -/
def transitions (func : Nat) (vars : List Variable) : List Variable :=
  ((List.zip (func :: vars.map (fun v => v.m_func.addr)) vars).filter
    (fun p => decide (p.1 ≠ p.2.m_func.addr))).map Prod.snd

/-- The line `do_backtrace` writes for a descriptor: `0x`, the address of the
descriptor in hexadecimal, `:`, the name of its function, and the line end. -/
def backtraceLine (v : Variable) : List Char :=
  "0x".toList ++ printLong (toInt16 (Int.ofNat v.self)) HEX ++ [':'] ++ v.m_func.chars ++ newline
/-- Unambiguous-prefix matching as the specification words it: a line selects a
command when it is a prefix of exactly one name of the command table, and
selects nothing otherwise. -/
def prefixMatch (cfg : Config) (buf : List Char) : Option Action :=
  match (commandTable cfg).filter (fun p => decide (buf <+: p.1)) with
  | [p] => some p.2
  | _ => none

/-- The command the chain of `Debug::run` runs for a line: none when the line falls
through to the variable lookup or to the unknown-command message. -/
def dispatchedCommand (cfg : Config) (buf : List Char) : Option Action :=
  match dispatch cfg buf with
  | Action.lookup => none
  | Action.unknown => none
  | a => some a
/-- The command names listed in the help text: the first word of each line of
`do_print_commands`, leaving out the `?VARIABLE` and `@VARIABLE` entries. -/
def helpNames (cfg : Config) : List (List Char) :=
  (((do_print_commands cfg).splitOn '\n').map (fun l => l.takeWhile (fun c => c != ' '))).filter
    (fun n => n != [] && n.headD NUL != '?' && n.headD NUL != '@')

/-- The configuration in which only `DEBUG_NO_PRINT_VARIABLES` is defined. -/
def noPrintVariables : Config := { Config.default with NO_PRINT_VARIABLES := true }

/-- The constant `BUF_MAX` of `Debug::run`: the size of the line buffer `buf`. -/
def BUF_MAX : Nat := 32

/-- What reading one line does: the stores into `buf` in order, each as the index
`bp - buf` written and the character stored; the text written to the transport;
the final `len = bp - buf`; and the `read()` values left unread. -/
structure LineRead where
  writes : List (Nat × Char)
  out : List Char
  len : Nat
  rest : List Int
deriving DecidableEq, Repr

/-- Model of the inner `while (1)` loop of `Debug::run` followed by `println()` and
`*bp = 0`, with every store into the buffer recorded and no bound imposed (the
code has none).  `bp` is the index `bp - buf`; `none` when the values run out
before a line terminator. -/
def readLine : List Int → Nat → List (Nat × Char) → List Char → Option LineRead
  | [], _, _, _ => none
  | c :: rest, bp, writes, out =>
    if c = 13 ∨ c = 10 then some ⟨writes ++ [(bp, NUL)], out ++ newline, bp, rest⟩
    else if c > 0 then
      readLine rest (bp + 1) (writes ++ [(bp, toChar c)]) (out ++ [toChar c])
    else readLine rest bp writes out

/-! ## Theorems -/


@[simp] theorem Debug.emit_nil (d : Debug) : d.emit [] = d := by
  cases d; simp [Debug.emit]

@[simp] theorem Debug.emit_emit (d : Debug) (a b : List Char) :
    (d.emit a).emit b = d.emit (a ++ b) := by
  simp [Debug.emit]

@[simp] theorem Debug.emit_m_dev (d : Debug) (a : List Char) : (d.emit a).m_dev = d.m_dev := rfl
@[simp] theorem Debug.emit_m_var (d : Debug) (a : List Char) : (d.emit a).m_var = d.m_var := rfl
@[simp] theorem Debug.emit_calls (d : Debug) (a : List Char) : (d.emit a).calls = d.calls := rfl
@[simp] theorem Debug.emit_out (d : Debug) (a : List Char) : (d.emit a).out = d.out ++ a := rfl
@[simp] theorem Debug.emit_DATASIZE (d : Debug) (a : List Char) : (d.emit a).DATASIZE = d.DATASIZE := rfl
@[simp] theorem Debug.emit_DATAEND (d : Debug) (a : List Char) : (d.emit a).DATAEND = d.DATAEND := rfl

theorem stored_nil : stored [] = [] := rfl

theorem stored_cons (c : Int) (ks : List Int) :
    stored (c :: ks) = if c > 0 then toChar c :: stored ks else stored ks := by
  unfold stored
  by_cases h : c > 0 <;> simp [List.filter_cons, h]

theorem runLoop_keys (cfg : Config) (pf : Platform) (marker : Nat) (file : Option CString)
    (line : Int) (func : Option CString) (rest : List Int) :
    ∀ (ks : List Int) (buf : List Char) (d : Debug),
      (∀ c ∈ ks, c ≠ 13 ∧ c ≠ 10) → buf.length + (stored ks).length ≤ 32 →
      runLoop cfg pf marker file line func (ks ++ rest) buf d =
        runLoop cfg pf marker file line func rest (buf ++ stored ks) (d.emit (stored ks)) := by
  intro ks
  induction ks with
  | nil => intro buf d _ _; simp [stored_nil]
  | cons c ks ih =>
    intro buf d hk hlen
    have hc := hk c (List.mem_cons_self _ _)
    have hks : ∀ x ∈ ks, x ≠ 13 ∧ x ≠ 10 := fun x hx => hk x (List.mem_cons_of_mem _ hx)
    rw [List.cons_append, runLoop]
    rw [stored_cons] at hlen ⊢
    by_cases hpos : c > 0
    · simp only [hpos, if_true] at hlen ⊢
      have h1 : ¬ (c = 13 ∨ c = 10) := by tauto
      have h2 : ¬ 32 ≤ buf.length := by simp at hlen; omega
      rw [if_neg h1, if_neg h2, ih _ _ hks (by simp at hlen ⊢; omega)]
      simp
    · simp only [hpos, if_false] at hlen ⊢
      have h1 : ¬ (c = 13 ∨ c = 10) := by tauto
      rw [if_neg h1, ih _ _ hks hlen]

theorem runLoop_eol (cfg : Config) (pf : Platform) (marker : Nat) (file : Option CString)
    (line : Int) (func : Option CString) (t : Int) (rest : List Int) (buf : List Char) (d : Debug)
    (ht : t = 13 ∨ t = 10) (h0 : buf ≠ []) (h32 : buf.length < 32) :
    runLoop cfg pf marker file line func (t :: rest) buf d =
      match exec cfg pf marker file line func buf (d.emit newline) (dispatch cfg buf) with
      | (Flow.again, d1) => runLoop cfg pf marker file line func rest [] (d1.emit prompt)
      | (Flow.leave, d1) => ⟨Outcome.returned (), d1, rest⟩
      | (Flow.halt, d1) => ⟨Outcome.exited, d1, rest⟩ := by
  have h1 : ¬ 32 ≤ buf.length := by omega
  have h2 : ¬ buf.length = 0 := by
    intro h; exact h0 (List.length_eq_zero.mp h)
  rw [runLoop, if_pos ht, if_neg h1, if_neg h2]


theorem char_eq_of_toNat_eq {c b : Char} (h : c.toNat = b.toNat) : c = b := by
  rw [← Char.ofNat_toNat c, ← Char.ofNat_toNat b, h]

theorem char_diff_ne_zero {c b : Char} (h : c ≠ b) :
    Int.ofNat c.toNat - Int.ofNat b.toNat ≠ 0 := by
  intro h0
  exact h (char_eq_of_toNat_eq (Int.ofNat_inj.mp (sub_eq_zero.mp h0)))

theorem strncmp_eq_zero_iff : ∀ (buf name : List Char), NUL ∉ buf →
    (strncmp buf name buf.length = 0 ↔ buf <+: name) := by
  intro buf
  induction buf with
  | nil => intro name _; simp [strncmp]
  | cons c buf ih =>
    intro name hn
    have hc : c ≠ NUL := fun h => hn (h ▸ List.mem_cons_self _ _)
    have hb : NUL ∉ buf := fun h => hn (List.mem_cons_of_mem _ h)
    cases name with
    | nil =>
      simp only [List.length_cons, strncmp, List.headD_cons, List.headD_nil, ne_eq, hc,
        not_false_eq_true, if_true]
      constructor
      · intro h; exact absurd h (char_diff_ne_zero hc)
      · intro h; simp at h
    | cons b name =>
      simp only [List.length_cons, strncmp, List.headD_cons, List.tail_cons, ne_eq]
      by_cases hcb : c = b
      · subst hcb
        simp [hc, ih name hb, List.cons_prefix_cons]
      · simp only [hcb, not_false_eq_true, if_true, List.cons_prefix_cons, false_and, iff_false]
        exact char_diff_ne_zero hcb


theorem commandTable_subset (cfg : Config) : commandTable cfg ⊆ commandTable Config.default := by
  intro p h
  simp only [commandTable, List.mem_append, List.mem_ite_nil_left, List.mem_cons,
    List.mem_singleton, List.not_mem_nil, or_false] at h
  simp only [commandTable, Config.default, List.mem_append, List.mem_cons,
    List.mem_singleton, List.not_mem_nil, or_false, Bool.false_eq_true, if_false]
  tauto

theorem commandTable_names (cfg : Config) (name : List Char) (act : Action)
    (h : (name, act) ∈ commandTable cfg) : NUL ∉ name ∧ name.length ≤ 9 := by
  have hall : ∀ p ∈ commandTable Config.default, NUL ∉ p.1 ∧ p.1.length ≤ 9 := by decide
  exact hall _ (commandTable_subset cfg h)

theorem bnot_of_not_true (b : Bool) (h : ¬ b = true) : (!b) = true := by
  cases b <;> simp_all

theorem dispatch_unique (cfg : Config) (buf name : List Char) (act : Action)
    (hmem : (name, act) ∈ commandTable cfg) (hpre : buf <+: name)
    (huniq : ∀ p ∈ commandTable cfg, buf <+: p.1 → p.1 = name) :
    dispatch cfg buf = act := by
  have hnul : NUL ∉ buf := fun h => (commandTable_names cfg name act hmem).1 (hpre.subset h)
  have key : ∀ nm : List Char, (strncmp buf nm buf.length = 0 ↔ buf <+: nm) :=
    fun nm => strncmp_eq_zero_iff buf nm hnul
  have u1 : buf <+: "go".toList → "go".toList = name :=
    huniq ("go".toList, Action.resume) (by simp [commandTable])
  have u2 : (!cfg.NO_BACKTRACE) = true → buf <+: "backtrace".toList → "backtrace".toList = name :=
    fun hf => huniq ("backtrace".toList, Action.backtrace) (by
      have hf2 : cfg.NO_BACKTRACE = false := by simpa using hf
      simp [commandTable, hf2])
  have u3 : (!cfg.NO_PRINT_DATA) = true → buf <+: "data".toList → "data".toList = name :=
    fun hf => huniq ("data".toList, Action.data) (by
      have hf2 : cfg.NO_PRINT_DATA = false := by simpa using hf
      simp [commandTable, hf2])
  have u4 : (!cfg.NO_PRINT_HEAP) = true → buf <+: "heap".toList → "heap".toList = name :=
    fun hf => huniq ("heap".toList, Action.heap) (by
      have hf2 : cfg.NO_PRINT_HEAP = false := by simpa using hf
      simp [commandTable, hf2])
  have u5 : (!cfg.NO_MEMORY_USAGE) = true → buf <+: "memory".toList → "memory".toList = name :=
    fun hf => huniq ("memory".toList, Action.memory) (by
      have hf2 : cfg.NO_MEMORY_USAGE = false := by simpa using hf
      simp [commandTable, hf2])
  have u6 : (!cfg.NO_PRINT_COMMANDS) = true → buf <+: "commands".toList → "commands".toList = name :=
    fun hf => huniq ("commands".toList, Action.commands) (by
      have hf2 : cfg.NO_PRINT_COMMANDS = false := by simpa using hf
      simp [commandTable, hf2])
  have u7 : (!cfg.NO_PRINT_COMMANDS) = true → buf <+: "help".toList → "help".toList = name :=
    fun hf => huniq ("help".toList, Action.commands) (by
      have hf2 : cfg.NO_PRINT_COMMANDS = false := by simpa using hf
      simp [commandTable, hf2])
  have u8 : (!cfg.NO_PRINT_STACK) = true → buf <+: "stack".toList → "stack".toList = name :=
    fun hf => huniq ("stack".toList, Action.stack) (by
      have hf2 : cfg.NO_PRINT_STACK = false := by simpa using hf
      simp [commandTable, hf2])
  have u9 : (!cfg.NO_PRINT_VARIABLES) = true → buf <+: "variables".toList → "variables".toList = name :=
    fun hf => huniq ("variables".toList, Action.variables) (by
      have hf2 : cfg.NO_PRINT_VARIABLES = false := by simpa using hf
      simp [commandTable, hf2])
  have u10 : (!cfg.NO_QUIT) = true → buf <+: "quit".toList → "quit".toList = name :=
    fun hf => huniq ("quit".toList, Action.quit) (by
      have hf2 : cfg.NO_QUIT = false := by simpa using hf
      simp [commandTable, hf2])
  have u11 : (!cfg.NO_WHERE) = true → buf <+: "where".toList → "where".toList = name :=
    fun hf => huniq ("where".toList, Action.location) (by
      have hf2 : cfg.NO_WHERE = false := by simpa using hf
      simp [commandTable, hf2])
  clear huniq
  unfold dispatch
  simp only [key]
  simp only [commandTable, List.mem_append, List.mem_ite_nil_left, List.mem_cons,
    List.mem_singleton, Prod.mk.injEq, List.not_mem_nil, or_false] at hmem
  rcases hmem with (((((((((⟨rfl, rfl⟩ | ⟨hf, rfl, rfl⟩) | ⟨hf, rfl, rfl⟩) | ⟨hf, rfl, rfl⟩) |
    ⟨hf, rfl, rfl⟩) | ⟨hf, ⟨rfl, rfl⟩ | ⟨rfl, rfl⟩⟩) | ⟨hf, rfl, rfl⟩) | ⟨hf, rfl, rfl⟩) |
    ⟨hf, rfl, rfl⟩) | ⟨hf, rfl, rfl⟩)
  · -- the line is a prefix of "go" only
    rw [if_pos hpre]
  · -- the line is a prefix of "backtrace" only
    have n1 : ¬ buf <+: "go".toList := fun h => absurd (u1 h) (by decide)
    rw [if_neg n1, if_pos ⟨bnot_of_not_true _ hf, hpre⟩]
  · -- the line is a prefix of "data" only
    have n1 : ¬ buf <+: "go".toList := fun h => absurd (u1 h) (by decide)
    have n2 : ¬ ((!cfg.NO_BACKTRACE) = true ∧ buf <+: "backtrace".toList) :=
      fun h => absurd (u2 h.1 h.2) (by decide)
    rw [if_neg n1, if_neg n2, if_pos ⟨bnot_of_not_true _ hf, hpre⟩]
  · -- the line is a prefix of "heap" only
    have n1 : ¬ buf <+: "go".toList := fun h => absurd (u1 h) (by decide)
    have n2 : ¬ ((!cfg.NO_BACKTRACE) = true ∧ buf <+: "backtrace".toList) :=
      fun h => absurd (u2 h.1 h.2) (by decide)
    have n3 : ¬ ((!cfg.NO_PRINT_DATA) = true ∧ buf <+: "data".toList) :=
      fun h => absurd (u3 h.1 h.2) (by decide)
    rw [if_neg n1, if_neg n2, if_neg n3, if_pos ⟨bnot_of_not_true _ hf, hpre⟩]
  · -- the line is a prefix of "memory" only
    have n1 : ¬ buf <+: "go".toList := fun h => absurd (u1 h) (by decide)
    have n2 : ¬ ((!cfg.NO_BACKTRACE) = true ∧ buf <+: "backtrace".toList) :=
      fun h => absurd (u2 h.1 h.2) (by decide)
    have n3 : ¬ ((!cfg.NO_PRINT_DATA) = true ∧ buf <+: "data".toList) :=
      fun h => absurd (u3 h.1 h.2) (by decide)
    have n4 : ¬ ((!cfg.NO_PRINT_HEAP) = true ∧ buf <+: "heap".toList) :=
      fun h => absurd (u4 h.1 h.2) (by decide)
    rw [if_neg n1, if_neg n2, if_neg n3, if_neg n4, if_pos ⟨bnot_of_not_true _ hf, hpre⟩]
  · -- the line is a prefix of "commands" only
    have n1 : ¬ buf <+: "go".toList := fun h => absurd (u1 h) (by decide)
    have n2 : ¬ ((!cfg.NO_BACKTRACE) = true ∧ buf <+: "backtrace".toList) :=
      fun h => absurd (u2 h.1 h.2) (by decide)
    have n3 : ¬ ((!cfg.NO_PRINT_DATA) = true ∧ buf <+: "data".toList) :=
      fun h => absurd (u3 h.1 h.2) (by decide)
    have n4 : ¬ ((!cfg.NO_PRINT_HEAP) = true ∧ buf <+: "heap".toList) :=
      fun h => absurd (u4 h.1 h.2) (by decide)
    have n5 : ¬ ((!cfg.NO_MEMORY_USAGE) = true ∧ buf <+: "memory".toList) :=
      fun h => absurd (u5 h.1 h.2) (by decide)
    rw [if_neg n1, if_neg n2, if_neg n3, if_neg n4, if_neg n5, if_pos ⟨bnot_of_not_true _ hf, Or.inl hpre⟩]
  · -- the line is a prefix of "help" only
    have n1 : ¬ buf <+: "go".toList := fun h => absurd (u1 h) (by decide)
    have n2 : ¬ ((!cfg.NO_BACKTRACE) = true ∧ buf <+: "backtrace".toList) :=
      fun h => absurd (u2 h.1 h.2) (by decide)
    have n3 : ¬ ((!cfg.NO_PRINT_DATA) = true ∧ buf <+: "data".toList) :=
      fun h => absurd (u3 h.1 h.2) (by decide)
    have n4 : ¬ ((!cfg.NO_PRINT_HEAP) = true ∧ buf <+: "heap".toList) :=
      fun h => absurd (u4 h.1 h.2) (by decide)
    have n5 : ¬ ((!cfg.NO_MEMORY_USAGE) = true ∧ buf <+: "memory".toList) :=
      fun h => absurd (u5 h.1 h.2) (by decide)
    rw [if_neg n1, if_neg n2, if_neg n3, if_neg n4, if_neg n5, if_pos ⟨bnot_of_not_true _ hf, Or.inr hpre⟩]
  · -- the line is a prefix of "stack" only
    have n1 : ¬ buf <+: "go".toList := fun h => absurd (u1 h) (by decide)
    have n2 : ¬ ((!cfg.NO_BACKTRACE) = true ∧ buf <+: "backtrace".toList) :=
      fun h => absurd (u2 h.1 h.2) (by decide)
    have n3 : ¬ ((!cfg.NO_PRINT_DATA) = true ∧ buf <+: "data".toList) :=
      fun h => absurd (u3 h.1 h.2) (by decide)
    have n4 : ¬ ((!cfg.NO_PRINT_HEAP) = true ∧ buf <+: "heap".toList) :=
      fun h => absurd (u4 h.1 h.2) (by decide)
    have n5 : ¬ ((!cfg.NO_MEMORY_USAGE) = true ∧ buf <+: "memory".toList) :=
      fun h => absurd (u5 h.1 h.2) (by decide)
    have n6 : ¬ ((!cfg.NO_PRINT_COMMANDS) = true ∧
        (buf <+: "commands".toList ∨ buf <+: "help".toList)) :=
      fun h => h.2.elim (fun h2 => absurd (u6 h.1 h2) (by decide))
        (fun h2 => absurd (u7 h.1 h2) (by decide))
    rw [if_neg n1, if_neg n2, if_neg n3, if_neg n4, if_neg n5, if_neg n6, if_pos ⟨bnot_of_not_true _ hf, hpre⟩]
  · -- the line is a prefix of "variables" only
    have n1 : ¬ buf <+: "go".toList := fun h => absurd (u1 h) (by decide)
    have n2 : ¬ ((!cfg.NO_BACKTRACE) = true ∧ buf <+: "backtrace".toList) :=
      fun h => absurd (u2 h.1 h.2) (by decide)
    have n3 : ¬ ((!cfg.NO_PRINT_DATA) = true ∧ buf <+: "data".toList) :=
      fun h => absurd (u3 h.1 h.2) (by decide)
    have n4 : ¬ ((!cfg.NO_PRINT_HEAP) = true ∧ buf <+: "heap".toList) :=
      fun h => absurd (u4 h.1 h.2) (by decide)
    have n5 : ¬ ((!cfg.NO_MEMORY_USAGE) = true ∧ buf <+: "memory".toList) :=
      fun h => absurd (u5 h.1 h.2) (by decide)
    have n6 : ¬ ((!cfg.NO_PRINT_COMMANDS) = true ∧
        (buf <+: "commands".toList ∨ buf <+: "help".toList)) :=
      fun h => h.2.elim (fun h2 => absurd (u6 h.1 h2) (by decide))
        (fun h2 => absurd (u7 h.1 h2) (by decide))
    have n7 : ¬ ((!cfg.NO_PRINT_STACK) = true ∧ buf <+: "stack".toList) :=
      fun h => absurd (u8 h.1 h.2) (by decide)
    rw [if_neg n1, if_neg n2, if_neg n3, if_neg n4, if_neg n5, if_neg n6, if_neg n7, if_pos ⟨bnot_of_not_true _ hf, hpre⟩]
  · -- the line is a prefix of "quit" only
    have n1 : ¬ buf <+: "go".toList := fun h => absurd (u1 h) (by decide)
    have n2 : ¬ ((!cfg.NO_BACKTRACE) = true ∧ buf <+: "backtrace".toList) :=
      fun h => absurd (u2 h.1 h.2) (by decide)
    have n3 : ¬ ((!cfg.NO_PRINT_DATA) = true ∧ buf <+: "data".toList) :=
      fun h => absurd (u3 h.1 h.2) (by decide)
    have n4 : ¬ ((!cfg.NO_PRINT_HEAP) = true ∧ buf <+: "heap".toList) :=
      fun h => absurd (u4 h.1 h.2) (by decide)
    have n5 : ¬ ((!cfg.NO_MEMORY_USAGE) = true ∧ buf <+: "memory".toList) :=
      fun h => absurd (u5 h.1 h.2) (by decide)
    have n6 : ¬ ((!cfg.NO_PRINT_COMMANDS) = true ∧
        (buf <+: "commands".toList ∨ buf <+: "help".toList)) :=
      fun h => h.2.elim (fun h2 => absurd (u6 h.1 h2) (by decide))
        (fun h2 => absurd (u7 h.1 h2) (by decide))
    have n7 : ¬ ((!cfg.NO_PRINT_STACK) = true ∧ buf <+: "stack".toList) :=
      fun h => absurd (u8 h.1 h.2) (by decide)
    have n8 : ¬ ((!cfg.NO_PRINT_VARIABLES) = true ∧ buf <+: "variables".toList) :=
      fun h => absurd (u9 h.1 h.2) (by decide)
    rw [if_neg n1, if_neg n2, if_neg n3, if_neg n4, if_neg n5, if_neg n6, if_neg n7, if_neg n8, if_pos ⟨bnot_of_not_true _ hf, hpre⟩]
  · -- the line is a prefix of "where" only
    have n1 : ¬ buf <+: "go".toList := fun h => absurd (u1 h) (by decide)
    have n2 : ¬ ((!cfg.NO_BACKTRACE) = true ∧ buf <+: "backtrace".toList) :=
      fun h => absurd (u2 h.1 h.2) (by decide)
    have n3 : ¬ ((!cfg.NO_PRINT_DATA) = true ∧ buf <+: "data".toList) :=
      fun h => absurd (u3 h.1 h.2) (by decide)
    have n4 : ¬ ((!cfg.NO_PRINT_HEAP) = true ∧ buf <+: "heap".toList) :=
      fun h => absurd (u4 h.1 h.2) (by decide)
    have n5 : ¬ ((!cfg.NO_MEMORY_USAGE) = true ∧ buf <+: "memory".toList) :=
      fun h => absurd (u5 h.1 h.2) (by decide)
    have n6 : ¬ ((!cfg.NO_PRINT_COMMANDS) = true ∧
        (buf <+: "commands".toList ∨ buf <+: "help".toList)) :=
      fun h => h.2.elim (fun h2 => absurd (u6 h.1 h2) (by decide))
        (fun h2 => absurd (u7 h.1 h2) (by decide))
    have n7 : ¬ ((!cfg.NO_PRINT_STACK) = true ∧ buf <+: "stack".toList) :=
      fun h => absurd (u8 h.1 h.2) (by decide)
    have n8 : ¬ ((!cfg.NO_PRINT_VARIABLES) = true ∧ buf <+: "variables".toList) :=
      fun h => absurd (u9 h.1 h.2) (by decide)
    have n9 : ¬ ((!cfg.NO_QUIT) = true ∧ buf <+: "quit".toList) :=
      fun h => absurd (u10 h.1 h.2) (by decide)
    rw [if_neg n1, if_neg n2, if_neg n3, if_neg n4, if_neg n5, if_neg n6, if_neg n7, if_neg n8, if_neg n9, if_pos ⟨bnot_of_not_true _ hf, hpre⟩]


theorem commandTable_actions (cfg : Config) (name : List Char) (act : Action)
    (h : (name, act) ∈ commandTable cfg) : act ≠ Action.unknown ∧ act ≠ Action.lookup := by
  have hall : ∀ p ∈ commandTable Config.default,
      p.2 ≠ Action.unknown ∧ p.2 ≠ Action.lookup := by decide
  exact hall _ (commandTable_subset cfg h)

theorem Debug.end_calls (d : Debug) : (d.end_).2.calls = d.calls := by
  unfold Debug.end_
  split <;> rfl

theorem exec_calls (cfg : Config) (pf : Platform) (marker : Nat) (file : Option CString)
    (line : Int) (func : Option CString) (buf : List Char) (d : Debug) (act : Action)
    (h : act ≠ Action.unknown) :
    (exec cfg pf marker file line func buf d act).2.calls = d.calls ++ [act] := by
  cases act <;> first
    | exact absurd rfl h
    | (simp only [exec, Debug.end_calls]; rfl)

/-! ### C1 -/

/-- C1 (counterexample): in the default configuration the line `he` is not
reported as unknown; on the sample console the heap handler is the one branch
taken and the heap dump is what is written before the next prompt. -/
theorem C1_he_runs_heap_dump :
    dispatch Config.default "he".toList = Action.heap ∧
    (run Config.default demoPlatform 0x8F0 none 0 none none [104, 101, 13] demoConsole).d.calls
      = [Action.heap] ∧
    (run Config.default demoPlatform 0x8F0 none 0 none none [104, 101, 13] demoConsole).d.out
      = "(debug) he\r\n0x200: 00 00 00 00 00 00 00 00 \r\n(debug) ".toList := by
  decide

/-- C1 (amended): in the default configuration the typed line `he` is resolved by
the first matching test in source order, which is `heap`: the session echoes the
line, runs `do_print_heap` and nothing else, and prompts for the next line. -/
theorem C1_he_first_match (pf : Platform) (marker : Nat) (file : Option CString) (line : Int)
    (func : Option CString) (rest : List Int) (d : Debug) :
    dispatch Config.default "he".toList = Action.heap ∧
    runLoop Config.default pf marker file line func (104 :: 101 :: 13 :: rest) [] d =
      runLoop Config.default pf marker file line func rest []
        (((d.emit ("he".toList ++ newline)).note Action.heap).emit (do_print_heap pf ++ prompt)) := by
  refine ⟨by decide, ?_⟩
  have h1 := runLoop_keys Config.default pf marker file line func (13 :: rest) [104, 101] [] d
    (by decide) (by decide)
  have h2 : stored [104, 101] = "he".toList := by decide
  have h3 : dispatch Config.default "he".toList = Action.heap := by decide
  rw [h2] at h1
  have h4 : ([104, 101] ++ 13 :: rest : List Int) = 104 :: 101 :: 13 :: rest := rfl
  rw [h4] at h1
  rw [h1, List.nil_append,
    runLoop_eol Config.default pf marker file line func 13 rest _ _ (Or.inl rfl) (by decide)
      (by decide), h3]
  simp [exec]

/-! ### C2 -/

/-- C2: a non-empty typed line that is a prefix of exactly one name of the command
table selects the branch of that name and the session runs its body (the
observation log gains exactly that branch); a test of the chain succeeds exactly
when the typed characters are a prefix of the name, so a line longer than the
name or differing in a typed character does not match. -/
theorem C2_unique_prefix_runs_handler (cfg : Config) (pf : Platform) (marker : Nat)
    (file : Option CString) (line : Int) (func : Option CString) (ks : List Int) (t : Int)
    (rest : List Int) (d : Debug) (name : List Char) (act : Action)
    (hks : ∀ c ∈ ks, c ≠ 13 ∧ c ≠ 10) (ht : t = 13 ∨ t = 10) (hne : stored ks ≠ [])
    (hmem : (name, act) ∈ commandTable cfg) (hpre : stored ks <+: name)
    (huniq : ∀ p ∈ commandTable cfg, stored ks <+: p.1 → p.1 = name) :
    dispatch cfg (stored ks) = act ∧
    runLoop cfg pf marker file line func (ks ++ t :: rest) [] d =
      (match exec cfg pf marker file line func (stored ks) (d.emit (stored ks ++ newline)) act with
        | (Flow.again, d1) => runLoop cfg pf marker file line func rest [] (d1.emit prompt)
        | (Flow.leave, d1) => ⟨Outcome.returned (), d1, rest⟩
        | (Flow.halt, d1) => ⟨Outcome.exited, d1, rest⟩) ∧
    (exec cfg pf marker file line func (stored ks) (d.emit (stored ks ++ newline)) act).2.calls
      = d.calls ++ [act] ∧
    (∀ (buf : List Char) (p : List Char × Action), p ∈ commandTable cfg → NUL ∉ buf →
      (strncmp buf p.1 buf.length = 0 ↔ buf <+: p.1)) := by
  have hd : dispatch cfg (stored ks) = act := dispatch_unique cfg _ name act hmem hpre huniq
  have hlen : (stored ks).length ≤ 9 :=
    le_trans hpre.length_le (commandTable_names cfg name act hmem).2
  refine ⟨hd, ?_, ?_, ?_⟩
  · rw [runLoop_keys cfg pf marker file line func (t :: rest) ks [] d hks
        (by simp only [List.length_nil]; omega), List.nil_append,
      runLoop_eol cfg pf marker file line func t rest _ _ ht hne (by omega), hd,
      Debug.emit_emit]
  · exact exec_calls cfg pf marker file line func _ _ act
      (commandTable_actions cfg name act hmem).1
  · intro buf p _ hn
    exact strncmp_eq_zero_iff buf p.1 hn

/-- C2 (witness): the typed line `st` in the default configuration is a prefix of
`stack` only. -/
theorem C2_unique_prefix_runs_handler_witness :
    stored [115, 116] ≠ [] ∧ stored [115, 116] <+: "stack".toList ∧
    dispatch Config.default (stored [115, 116]) = Action.stack :=
  ⟨by decide, by decide,
    (C2_unique_prefix_runs_handler Config.default demoPlatform 0x8F0 none 0 none [115, 116] 13 []
      demoConsole "stack".toList Action.stack (by decide) (by decide) (by decide) (by decide)
      (by decide) (by decide)).1⟩


theorem runLoop_append (cfg : Config) (pf : Platform) (marker : Nat) (file : Option CString)
    (line : Int) (func : Option CString) (more : List Int) :
    ∀ (pre : List Int) (buf : List Char) (d : Debug) (b : List Char) (d' : Debug) (r : List Int),
      runLoop cfg pf marker file line func pre buf d = ⟨Outcome.waiting b, d', r⟩ →
      runLoop cfg pf marker file line func (pre ++ more) buf d =
        runLoop cfg pf marker file line func more b d' := by
  intro pre
  induction pre with
  | nil =>
    intro buf d b d' r h
    simp only [runLoop, Result.mk.injEq, Outcome.waiting.injEq] at h
    obtain ⟨rfl, rfl, -⟩ := h
    rfl
  | cons c pre ih =>
    intro buf d b d' r h
    rw [List.cons_append, runLoop]
    rw [runLoop] at h
    split_ifs at h ⊢ with h1 h2 h3 h4 h5
    · simp at h
    · exact ih _ _ _ _ _ h
    · rcases hex : exec cfg pf marker file line func buf (d.emit newline) (dispatch cfg buf)
        with ⟨fl, d1⟩
      rw [hex] at h
      cases fl
      · exact ih _ _ _ _ _ h
      · simp at h
      · simp at h
    · simp at h
    · exact ih _ _ _ _ _ h
    · exact ih _ _ _ _ _ h


theorem exec_leave_iff (cfg : Config) (pf : Platform) (marker : Nat) (file : Option CString)
    (line : Int) (func : Option CString) (buf : List Char) (d : Debug) (act : Action) :
    (exec cfg pf marker file line func buf d act).1 = Flow.leave ↔ act = Action.resume := by
  cases act <;> simp [exec]

theorem ite_ne {α : Type} {c : Prop} [Decidable c] {a b x : α} (ha : a ≠ x) (hb : b ≠ x) :
    (if c then a else b) ≠ x := by
  split <;> assumption

theorem dispatch_resume_iff (cfg : Config) (buf : List Char) :
    dispatch cfg buf = Action.resume ↔ strncmp buf "go".toList buf.length = 0 := by
  unfold dispatch
  constructor
  · intro h
    by_contra hgo
    rw [if_neg hgo] at h
    revert h
    repeat' apply ite_ne
    all_goals (intro h; cases h)
  · intro h
    rw [if_pos h]

theorem char_ofNat_toNat (n : Nat) (h : n < 256) : (Char.ofNat n).toNat = n := by
  have hv : n.isValidChar := Or.inl (by omega)
  unfold Char.ofNat
  rw [dif_pos hv]
  simp [Char.ofNatAux, Char.toNat, UInt32.toNat]

theorem toChar_ne_NUL (c : Int) (h0 : c > 0) (h1 : c < 256) : toChar c ≠ NUL := by
  intro h
  have h2 : (toChar c).toNat = (c % 256).toNat := char_ofNat_toNat _ (by omega)
  rw [h] at h2
  have h3 : NUL.toNat = 0 := by decide
  omega

theorem stored_no_NUL (ks : List Int) (h : ∀ c ∈ ks, c < 256) : NUL ∉ stored ks := by
  induction ks with
  | nil => simp [stored_nil]
  | cons c ks ih =>
    rw [stored_cons]
    have hks := ih (fun x hx => h x (List.mem_cons_of_mem _ hx))
    by_cases hc : c > 0
    · rw [if_pos hc]
      intro hm
      rcases List.mem_cons.mp hm with h1 | h1
      · exact toChar_ne_NUL c hc (h c (List.mem_cons_self _ _)) h1.symm
      · exact hks h1
    · rw [if_neg hc]; exact hks

theorem endsWithGoLine_eol (cfg : Config) (c : Int) (inp rest : List Int) (buf : List Char)
    (h1 : c = 13 ∨ c = 10) (h : EndsWithGoLine cfg inp [] rest) :
    EndsWithGoLine cfg (c :: inp) buf rest := by
  obtain ⟨pre, ks, t, e1, e2, e3, e4, e5, e6⟩ := h
  refine ⟨c :: pre, ks, t, ?_, e2, e3, Or.inr ?_, ?_, ?_⟩
  · rw [List.cons_append, List.cons_append, ← e1]
  · rcases e4 with rfl | ⟨p, e, rfl, he⟩
    · exact ⟨[], c, rfl, h1⟩
    · exact ⟨c :: p, e, rfl, he⟩
  · simpa using e5
  · simpa using e6

theorem endsWithGoLine_key (cfg : Config) (c : Int) (inp rest : List Int) (buf : List Char)
    (h1 : ¬ (c = 13 ∨ c = 10))
    (h : EndsWithGoLine cfg inp (buf ++ stored [c]) rest) :
    EndsWithGoLine cfg (c :: inp) buf rest := by
  obtain ⟨pre, ks, t, e1, e2, e3, e4, e5, e6⟩ := h
  by_cases hp : pre = []
  · subst hp
    have hs : stored (c :: ks) = stored [c] ++ stored ks := by
      simp only [stored_cons, stored_nil]; split <;> simp
    refine ⟨[], c :: ks, t, ?_, e2, ?_, Or.inl rfl, ?_, ?_⟩
    · simpa using e1
    · intro x hx
      rcases List.mem_cons.mp hx with rfl | hx
      · exact ⟨fun hh => h1 (Or.inl hh), fun hh => h1 (Or.inr hh)⟩
      · exact e3 x hx
    · simpa [hs] using e5
    · simpa [hs] using e6
  · refine ⟨c :: pre, ks, t, ?_, e2, e3, Or.inr ?_, ?_, ?_⟩
    · rw [List.cons_append, List.cons_append, ← e1]
    · rcases e4 with rfl | ⟨p, e, rfl, he⟩
      · exact absurd rfl hp
      · exact ⟨c :: p, e, rfl, he⟩
    · simpa [hp] using e5
    · simpa [hp] using e6

theorem runLoop_returned (cfg : Config) (pf : Platform) (marker : Nat) (file : Option CString)
    (line : Int) (func : Option CString) :
    ∀ (inp : List Int) (buf : List Char) (d : Debug),
      (runLoop cfg pf marker file line func inp buf d).outcome = Outcome.returned () →
      EndsWithGoLine cfg inp buf (runLoop cfg pf marker file line func inp buf d).rest := by
  intro inp
  induction inp with
  | nil => intro buf d h; simp [runLoop] at h
  | cons c inp ih =>
    intro buf d h
    rw [runLoop] at h ⊢
    by_cases h1 : c = 13 ∨ c = 10
    · rw [if_pos h1] at h ⊢
      by_cases h2 : 32 ≤ buf.length
      · rw [if_pos h2] at h; simp at h
      · rw [if_neg h2] at h ⊢
        by_cases h3 : buf.length = 0
        · rw [if_pos h3] at h ⊢
          exact endsWithGoLine_eol cfg c inp _ buf h1 (ih _ _ h)
        · rw [if_neg h3] at h ⊢
          rcases hex : exec cfg pf marker file line func buf (d.emit newline) (dispatch cfg buf)
            with ⟨fl, d1⟩
          rw [hex] at h
          cases fl
          · exact endsWithGoLine_eol cfg c inp _ buf h1 (ih _ _ h)
          · refine ⟨[], [], c, rfl, h1, by simp, Or.inl rfl, ?_, ?_⟩
            · simpa [stored_nil] using fun hb : buf = [] => h3 (by simp [hb])
            · have := (exec_leave_iff cfg pf marker file line func buf (d.emit newline)
                (dispatch cfg buf)).mp (by rw [hex])
              simpa [stored_nil] using this
          · simp at h
    · rw [if_neg h1] at h ⊢
      by_cases h4 : c > 0
      · rw [if_pos h4] at h ⊢
        by_cases h5 : 32 ≤ buf.length
        · rw [if_pos h5] at h; simp at h
        · rw [if_neg h5] at h ⊢
          apply endsWithGoLine_key cfg c inp _ buf h1
          have hs : stored [c] = [toChar c] := by simp [stored_cons, stored_nil, h4]
          rw [hs]
          exact ih _ _ h
      · rw [if_neg h4] at h ⊢
        apply endsWithGoLine_key cfg c inp _ buf h1
        have hs : stored [c] = [] := by simp [stored_cons, stored_nil, h4]
        rw [hs, List.append_nil]
        exact ih _ _ h


theorem prefix_go (l : List Char) (h : l <+: "go".toList) (hne : l ≠ []) :
    l = "g".toList ∨ l = "go".toList := by
  have e1 : "go".toList = ['g', 'o'] := rfl
  have e2 : "g".toList = ['g'] := rfl
  rw [e1] at h ⊢
  rw [e2]
  obtain ⟨s, hs⟩ := h
  rcases l with _ | ⟨a, _ | ⟨b, _ | ⟨c, l⟩⟩⟩
  · exact absurd rfl hne
  · left; simp at hs; simp [hs.1]
  · right; simp at hs; simp [hs.1, hs.2]
  · simp at hs

theorem dispatch_go (cfg : Config) (l : List Char) (h : l = "g".toList ∨ l = "go".toList) :
    dispatch cfg l = Action.resume := by
  rw [dispatch_resume_iff]
  rcases h with rfl | rfl <;> decide

theorem runLoop_go (cfg : Config) (pf : Platform) (marker : Nat) (file : Option CString)
    (line : Int) (func : Option CString) (ks : List Int) (t : Int) (rest : List Int) (d : Debug)
    (hks : ∀ c ∈ ks, c ≠ 13 ∧ c ≠ 10) (ht : t = 13 ∨ t = 10)
    (hgo : stored ks = "g".toList ∨ stored ks = "go".toList) :
    runLoop cfg pf marker file line func (ks ++ t :: rest) [] d =
      ⟨Outcome.returned (), (d.emit (stored ks ++ newline)).note Action.resume, rest⟩ := by
  have hlen : (stored ks).length ≤ 2 := by rcases hgo with h | h <;> rw [h] <;> decide
  have hne : stored ks ≠ [] := by rcases hgo with h | h <;> rw [h] <;> decide
  rw [runLoop_keys cfg pf marker file line func (t :: rest) ks [] d hks
      (by simp only [List.length_nil]; omega), List.nil_append,
    runLoop_eol cfg pf marker file line func t rest _ _ ht hne (by omega), dispatch_go cfg _ hgo,
    Debug.emit_emit]
  rfl

/-! ### C3 -/

/-- C3: the session returns to its caller exactly on the resume command.  Whenever
`run` has consumed `pre` and waits at the start of a line, a following line whose
stored characters are `g` or `go` makes it return at once, leaving the later
input unread and the console attached as it was; conversely, if `run` returns,
the input it consumed ends with a terminated line whose stored characters are `g`
or `go`.  `break_at` on an attached console is a print followed by `run`, and it
returns only on an attached console. -/
theorem C3_returns_only_on_go (cfg : Config) (pf : Platform) (marker : Nat)
    (file : Option CString) (line : Int) (func : Option CString) (expr : Option (List Char)) :
    (∀ (pre ks : List Int) (t : Int) (rest : List Int) (d d1 : Debug),
      run cfg pf marker file line func expr pre d = ⟨Outcome.waiting [], d1, []⟩ →
      (∀ c ∈ ks, c ≠ 13 ∧ c ≠ 10) → (t = 13 ∨ t = 10) →
      (stored ks = "g".toList ∨ stored ks = "go".toList) →
      run cfg pf marker file line func expr (pre ++ ks ++ t :: rest) d =
        ⟨Outcome.returned (), (d1.emit (stored ks ++ newline)).note Action.resume, rest⟩) ∧
    (∀ (inp : List Int) (d : Debug), (∀ c ∈ inp, c < 256) →
      (run cfg pf marker file line func expr inp d).outcome = Outcome.returned () →
      ∃ (pre ks : List Int) (t : Int),
        inp = pre ++ ks ++ t :: (run cfg pf marker file line func expr inp d).rest ∧
        (t = 13 ∨ t = 10) ∧ (∀ c ∈ ks, c ≠ 13 ∧ c ≠ 10) ∧
        (pre = [] ∨ ∃ (p : List Int) (e : Int), pre = p ++ [e] ∧ (e = 13 ∨ e = 10)) ∧
        (stored ks = "g".toList ∨ stored ks = "go".toList)) ∧
    (∀ (inp : List Int) (d : Debug), d.m_dev ≠ NULL →
      Debug.break_at cfg pf marker file line func expr inp d =
        run cfg pf marker file line func expr inp (d.emit "Debug::break_at".toList)) ∧
    (∀ (inp : List Int) (d : Debug),
      (Debug.break_at cfg pf marker file line func expr inp d).outcome = Outcome.returned () →
      d.m_dev ≠ NULL) := by
  refine ⟨?_, ?_, ?_, ?_⟩
  · intro pre ks t rest d d1 hw hks ht hgo
    by_cases hd : d.m_dev = NULL
    · simp [run, hd] at hw
    · simp only [run, if_neg hd] at hw ⊢
      rw [List.append_assoc,
        runLoop_append cfg pf marker file line func (ks ++ t :: rest) pre [] _ [] d1 [] hw]
      exact runLoop_go cfg pf marker file line func ks t rest d1 hks ht hgo
  · intro inp d hb hr
    by_cases hd : d.m_dev = NULL
    · simp [run, hd] at hr
    · simp only [run, if_neg hd] at hr ⊢
      obtain ⟨pre, ks, t, e1, e2, e3, e4, e5, e6⟩ :=
        runLoop_returned cfg pf marker file line func inp [] _ hr
      refine ⟨pre, ks, t, e1, e2, e3, e4, ?_⟩
      have hl : (if pre = [] then ([] : List Char) else []) ++ stored ks = stored ks := by
        split <;> rfl
      rw [hl] at e5 e6
      have hsub : ∀ c ∈ ks, c < 256 := by
        intro c hc
        apply hb c
        rw [e1]
        simp [hc]
      have hn := stored_no_NUL ks hsub
      exact prefix_go _ ((strncmp_eq_zero_iff _ _ hn).mp ((dispatch_resume_iff cfg _).mp e6)) e5
  · intro inp d hd
    simp [Debug.break_at, hd]
  · intro inp d hr hd
    simp [Debug.break_at, hd] at hr

/-- C3 (witness): on the sample console the input `w`, CR, `go`, CR, `x` returns
after the `go` line and leaves `x` unread. -/
theorem C3_returns_only_on_go_witness :
    run Config.default demoPlatform 0x8F0 none 0 none none
        ([119, 13] ++ [103, 111] ++ 13 :: [120]) demoConsole =
      ⟨Outcome.returned (),
        (((run Config.default demoPlatform 0x8F0 none 0 none none [119, 13] demoConsole).d.emit
          (stored [103, 111] ++ newline)).note Action.resume), [120]⟩ :=
  (C3_returns_only_on_go Config.default demoPlatform 0x8F0 none 0 none none).1
    [119, 13] [103, 111] 13 [120] demoConsole _ rfl (by decide) (by decide) (by decide)


theorem Debug.end_m_dev (d : Debug) : (d.end_).2.m_dev = NULL := by
  unfold Debug.end_
  split
  · assumption
  · rfl

theorem exec_m_dev (cfg : Config) (pf : Platform) (marker : Nat) (file : Option CString)
    (line : Int) (func : Option CString) (buf : List Char) (d : Debug) (act : Action) :
    ((exec cfg pf marker file line func buf d act).1 = Flow.halt ∧
      (exec cfg pf marker file line func buf d act).2.m_dev = NULL) ∨
    ((exec cfg pf marker file line func buf d act).1 ≠ Flow.halt ∧
      (exec cfg pf marker file line func buf d act).2.m_dev = d.m_dev) := by
  cases act <;> first
    | (left; exact ⟨rfl, Debug.end_m_dev _⟩)
    | (right; exact ⟨by simp [exec], rfl⟩)

theorem runLoop_m_dev (cfg : Config) (pf : Platform) (marker : Nat) (file : Option CString)
    (line : Int) (func : Option CString) :
    ∀ (inp : List Int) (buf : List Char) (d : Debug),
      ((runLoop cfg pf marker file line func inp buf d).outcome = Outcome.exited →
        (runLoop cfg pf marker file line func inp buf d).d.m_dev = NULL) ∧
      ((runLoop cfg pf marker file line func inp buf d).outcome ≠ Outcome.exited →
        (runLoop cfg pf marker file line func inp buf d).d.m_dev = d.m_dev) := by
  intro inp
  induction inp with
  | nil => intro buf d; simp [runLoop]
  | cons c inp ih =>
    intro buf d
    rw [runLoop]
    by_cases h1 : c = 13 ∨ c = 10
    · rw [if_pos h1]
      by_cases h2 : 32 ≤ buf.length
      · rw [if_pos h2]; simp
      · rw [if_neg h2]
        by_cases h3 : buf.length = 0
        · rw [if_pos h3]
          simpa using ih [] ((d.emit newline).emit prompt)
        · rw [if_neg h3]
          have hm := exec_m_dev cfg pf marker file line func buf (d.emit newline) (dispatch cfg buf)
          rcases hex : exec cfg pf marker file line func buf (d.emit newline) (dispatch cfg buf)
            with ⟨fl, d1⟩
          rw [hex] at hm
          cases fl
          · have hd1 : d1.m_dev = d.m_dev := by simpa using hm
            have := ih [] (d1.emit prompt)
            simpa [hd1] using this
          · have hd1 : d1.m_dev = d.m_dev := by simpa using hm
            simp [hd1]
          · have hd1 : d1.m_dev = NULL := by simpa using hm
            simp [hd1]
    · rw [if_neg h1]
      by_cases h4 : c > 0
      · rw [if_pos h4]
        by_cases h5 : 32 ≤ buf.length
        · rw [if_pos h5]; simp
        · rw [if_neg h5]
          simpa using ih (buf ++ [toChar c]) (d.emit [toChar c])
      · rw [if_neg h4]
        exact ih buf d

/-! ### C4 -/

/-- C4: `Debug::assert` never returns.  For every input its outcome is not a
normal return, and an exit leaves the transport detached.  When its session is
left by the resume command, `end()` runs (the farewell is written, the transport
detached) and the process exits; when the session is left by `quit`, the process
has exited inside the session with the transport detached. -/
theorem C4_assert_never_returns (cfg : Config) (pf : Platform) (marker : Nat)
    (file : Option CString) (line : Int) (func : Option CString) (cond : Option (List Char))
    (inp : List Int) (d : Debug) :
    (Debug.assert cfg pf marker file line func cond inp d).outcome ≠ Outcome.returned () ∧
    ((Debug.assert cfg pf marker file line func cond inp d).outcome = Outcome.exited →
      (Debug.assert cfg pf marker file line func cond inp d).d.m_dev = NULL) ∧
    (∀ (d1 : Debug) (rest : List Int),
      run cfg pf marker file line func cond inp (d.emit "Debug::assert".toList) =
        ⟨Outcome.returned (), d1, rest⟩ →
      Debug.assert cfg pf marker file line func cond inp d =
        ⟨Outcome.exited, { d1.emit ("Debug::end".toList ++ newline) with m_dev := NULL }, rest⟩) ∧
    (∀ (d1 : Debug) (rest : List Int),
      run cfg pf marker file line func cond inp (d.emit "Debug::assert".toList) =
        ⟨Outcome.exited, d1, rest⟩ →
      Debug.assert cfg pf marker file line func cond inp d = ⟨Outcome.exited, d1, rest⟩ ∧
        d1.m_dev = NULL) := by
  by_cases hd : d.m_dev = NULL
  · have hrun : run cfg pf marker file line func cond inp (d.emit "Debug::assert".toList) =
        ⟨Outcome.undefined, d.emit "Debug::assert".toList, inp⟩ := by
      simp [run, hd]
    refine ⟨by simp [Debug.assert, hd], by simp [Debug.assert, hd], ?_, ?_⟩
    · intro d1 rest h; rw [hrun] at h; simp at h
    · intro d1 rest h; rw [hrun] at h; simp at h
  · have hm := runLoop_m_dev cfg pf marker file line func inp []
      (((d.emit "Debug::assert".toList).emit (runHead line func cond)).emit prompt)
    have hrun : run cfg pf marker file line func cond inp (d.emit "Debug::assert".toList) =
        runLoop cfg pf marker file line func inp []
          (((d.emit "Debug::assert".toList).emit (runHead line func cond)).emit prompt) := by
      simp [run, hd]
    rw [← hrun] at hm
    simp only [Debug.assert, if_neg hd]
    rcases hr : run cfg pf marker file line func cond inp (d.emit "Debug::assert".toList)
      with ⟨o, d1, rest⟩
    rw [hr] at hm
    cases o with
    | returned u =>
      have hd1 : d1.m_dev ≠ NULL := by
        have := hm.2 (by simp)
        simp at this
        rw [this]; exact hd
      refine ⟨by simp, fun _ => Debug.end_m_dev d1, ?_, ?_⟩
      · intro d2 rest2 h
        simp only [Result.mk.injEq] at h
        obtain ⟨-, rfl, rfl⟩ := h
        simp [Debug.end_, hd1]
      · intro d2 rest2 h
        simp at h
    | exited =>
      have hd1 : d1.m_dev = NULL := hm.1 rfl
      refine ⟨by simp, fun _ => hd1, ?_, ?_⟩
      · intro d2 rest2 h; simp at h
      · intro d2 rest2 h
        simp only [Result.mk.injEq] at h
        obtain ⟨-, rfl, rfl⟩ := h
        exact ⟨rfl, hd1⟩
    | waiting b =>
      refine ⟨by simp, by simp, ?_, ?_⟩
      · intro d2 rest2 h; simp at h
      · intro d2 rest2 h; simp at h
    | undefined =>
      refine ⟨by simp, by simp, ?_, ?_⟩
      · intro d2 rest2 h; simp at h
      · intro d2 rest2 h; simp at h

/-- C4 (witness): on the sample console an assertion session left by `go` ends in
exit with the transport detached and the farewell written. -/
theorem C4_assert_never_returns_witness :
    Debug.assert Config.default demoPlatform 0x8F0 none 0 none none [103, 111, 13] demoConsole =
      ⟨Outcome.exited,
        { (run Config.default demoPlatform 0x8F0 none 0 none none [103, 111, 13]
            (demoConsole.emit "Debug::assert".toList)).d.emit ("Debug::end".toList ++ newline)
          with m_dev := NULL }, []⟩ :=
  (C4_assert_never_returns Config.default demoPlatform 0x8F0 none 0 none none [103, 111, 13]
    demoConsole).2.2.1 _ _ rfl


/-! ### C5 -/

/-- C5: `begin` on a console that already has a transport returns `false` and
changes nothing: the console (transport, registry, captured data-segment end and
size, text written) is as before and no input value is consumed. -/
theorem C5_begin_while_attached (cfg : Config) (pf : Platform) (marker dev : Nat)
    (file : Option CString) (line : Int) (func : Option CString) (inp : List Int) (d : Debug)
    (h : d.m_dev ≠ NULL) :
    Debug.begin cfg pf marker dev file line func inp d = ⟨Outcome.returned false, d, inp⟩ := by
  simp [Debug.begin, h]

/-- C5 (witness): a second `begin` on the sample attached console. -/
theorem C5_begin_while_attached_witness :
    Debug.begin Config.default demoPlatform 0x8F0 7 none 0 none [103, 13] demoConsole =
      ⟨Outcome.returned false, demoConsole, [103, 13]⟩ :=
  C5_begin_while_attached Config.default demoPlatform 0x8F0 7 none 0 none [103, 13] demoConsole
    (by decide)

/-! ### C6 -/

/-- C6: on an unattached console `end()` returns `false` and leaves the console as
it was (nothing is written).  A `begin` after it never reports failure; it
attaches the given transport, and when its session is resumed it returns `true`
with that transport attached.  On an attached console `end()` returns `true`,
writes the farewell and leaves the console unattached. -/
theorem C6_end_unattached_then_begin (cfg : Config) (pf : Platform) (marker dev : Nat)
    (file : Option CString) (line : Int) (func : Option CString) :
    (∀ d : Debug, d.m_dev = NULL → d.end_ = (false, d)) ∧
    (∀ (d : Debug) (inp : List Int), d.m_dev = NULL →
      (Debug.begin cfg pf marker dev file line func inp (d.end_).2).outcome
        ≠ Outcome.returned false) ∧
    (∀ (d d1 : Debug) (inp rest : List Int), d.m_dev = NULL → dev ≠ NULL →
      run cfg pf marker file line func none inp ((d.attach pf dev).emit banner)
        = ⟨Outcome.returned (), d1, rest⟩ →
      Debug.begin cfg pf marker dev file line func inp (d.end_).2
        = ⟨Outcome.returned true, d1, rest⟩ ∧ d1.m_dev = dev) ∧
    (∀ d : Debug, d.m_dev ≠ NULL →
      (d.end_).1 = true ∧ (d.end_).2.m_dev = NULL ∧
      (d.end_).2.out = d.out ++ "Debug::end".toList ++ newline ∧
      (d.end_).2.m_var = d.m_var) := by
  refine ⟨?_, ?_, ?_, ?_⟩
  · intro d hd
    simp [Debug.end_, hd]
  · intro d inp hd
    have he : d.end_ = (false, d) := by simp [Debug.end_, hd]
    rw [he]
    have hd2 : ¬ d.m_dev ≠ NULL := by simp [hd]
    simp only [Debug.begin, if_neg hd2]
    split <;> simp
  · intro d d1 inp rest hd hdev hrun
    have he : d.end_ = (false, d) := by simp [Debug.end_, hd]
    rw [he]
    have hd2 : ¬ d.m_dev ≠ NULL := by simp [hd]
    simp only [Debug.begin, if_neg hd2, hrun]
    refine ⟨trivial, ?_⟩
    have hdev2 : ((d.attach pf dev).emit banner).m_dev = dev := rfl
    have hdev3 : ¬ ((d.attach pf dev).emit banner).m_dev = NULL := by rw [hdev2]; exact hdev
    have hm := (runLoop_m_dev cfg pf marker file line func inp []
      ((((d.attach pf dev).emit banner).emit (runHead line func none)).emit prompt)).2
    simp only [run, if_neg hdev3] at hrun
    rw [hrun] at hm
    exact hm (by simp)
  · intro d hd
    simp [Debug.end_, hd, Debug.emit]

/-- C6 (witness): on the freshly constructed console `end()` fails, and a `begin`
after it whose session reads `go` returns `true` with stream 7 attached. -/
theorem C6_end_unattached_then_begin_witness :
    Debug.begin Config.default demoPlatform 0x8F0 7 none 0 none [103, 111, 13] (Debug.init.end_).2
      = ⟨Outcome.returned true,
          (run Config.default demoPlatform 0x8F0 none 0 none none [103, 111, 13]
            ((Debug.init.attach demoPlatform 7).emit banner)).d, []⟩ ∧
    (run Config.default demoPlatform 0x8F0 none 0 none none [103, 111, 13]
      ((Debug.init.attach demoPlatform 7).emit banner)).d.m_dev = 7 :=
  (C6_end_unattached_then_begin Config.default demoPlatform 0x8F0 7 none 0 none).2.2.1
    Debug.init _ [103, 111, 13] [] rfl (by decide) rfl


/-! ### `dump` -/

theorem dumpRowFrom_zero (mem : Nat → Nat) (p n : Nat) : dumpRowFrom mem p n 0 = [] := rfl

theorem dumpRowFrom_succ (mem : Nat → Nat) (p n cnt : Nat) :
    dumpRowFrom mem p n (cnt + 1) =
      dumpByte (mem p % 256) ++ (if n + 1 < 16 then [' '] else []) ++
        dumpRowFrom mem (p + 1) (n + 1) cnt := by
  unfold dumpRowFrom
  rw [List.range_succ_eq_map, List.flatMap_cons, List.flatMap_map]
  simp only [Nat.add_zero, List.append_assoc]
  congr 2
  apply congrArg
  funext j
  have h1 : p + Nat.succ j = p + 1 + j := by omega
  have h2 : n + Nat.succ j + 1 = n + 1 + j + 1 := by omega
  simp only [Function.comp, h1, h2]

theorem dumpLoop_within (mem : Nat → Nat) (size : Nat) :
    ∀ (cnt src p n : Nat), src < 65536 → n + cnt < 16 →
      dumpLoop mem (cnt + size) src p n =
        dumpRowFrom mem p n cnt ++ dumpLoop mem size ((src + cnt) % 65536) (p + cnt) (n + cnt) := by
  intro cnt
  induction cnt with
  | zero =>
    intro src p n hs _
    simp [dumpRowFrom_zero, Nat.mod_eq_of_lt hs]
  | succ cnt ih =>
    intro src p n hs hn
    have e : cnt + 1 + size = (cnt + size) + 1 := by omega
    rw [e, dumpLoop, dumpRowFrom_succ]
    have h1 : (n + 1) % 256 = n + 1 := Nat.mod_eq_of_lt (by omega)
    have h2 : n + 1 < 16 := by omega
    simp only [h1, h2, if_true]
    rw [ih ((src + 1) % 65536) (p + 1) (n + 1) (Nat.mod_lt _ (by decide)) (by omega)]
    have e1 : ((src + 1) % 65536 + cnt) % 65536 = (src + (cnt + 1)) % 65536 := by omega
    have e2 : p + 1 + cnt = p + (cnt + 1) := by omega
    have e3 : n + 1 + cnt = n + (cnt + 1) := by omega
    rw [e1, e2, e3]
    simp

theorem dumpLoop_fill (mem : Nat → Nat) (size cnt src p n : Nat) (hs : src < 65536)
    (hn : n + (cnt + 1) = 16) :
    dumpLoop mem (cnt + 1 + size) src p n =
      dumpRowFrom mem p n (cnt + 1) ++ newline ++
        (if size > 0 then dumpHead ((src + (cnt + 1)) % 65536) else []) ++
        dumpLoop mem size ((src + (cnt + 1)) % 65536) (p + (cnt + 1)) 0 := by
  have e : cnt + 1 + size = cnt + (size + 1) := by omega
  rw [e, dumpLoop_within mem (size + 1) cnt src p n hs (by omega), dumpLoop]
  have h1 : (n + cnt + 1) % 256 = 16 := by
    rw [Nat.mod_eq_of_lt (by omega)]; omega
  have e1 : ((src + cnt) % 65536 + 1) % 65536 = (src + (cnt + 1)) % 65536 := by omega
  have e2 : p + cnt + 1 = p + (cnt + 1) := by omega
  simp only [h1, lt_irrefl, if_false, e1, e2]
  have hrow : dumpRowFrom mem p n (cnt + 1) =
      dumpRowFrom mem p n cnt ++ dumpByte (mem (p + cnt) % 256) := by
    unfold dumpRowFrom
    rw [List.range_succ, List.flatMap_append]
    have h3 : ¬ n + cnt + 1 < 16 := by omega
    simp [h3]
  rw [hrow]
  simp only [List.append_assoc]

theorem dumpLoop_last (mem : Nat → Nat) (cnt src p n : Nat) (hs : src < 65536)
    (hn : n + cnt < 16) (h0 : n + cnt ≠ 0) :
    dumpLoop mem cnt src p n = dumpRowFrom mem p n cnt ++ newline := by
  have := dumpLoop_within mem 0 cnt src p n hs hn
  rw [Nat.add_zero] at this
  rw [this, dumpLoop]
  simp [h0]


theorem dump_lines (mem : Nat → Nat) :
    ∀ (m L src p : Nat), src < 65536 → (L + 15) / 16 = m →
      dumpHead src ++ dumpLoop mem L src p 0 =
        (if L = 0 then dumpHead src else []) ++
          (List.range ((L + 15) / 16)).flatMap (fun k =>
            dumpHead ((src + 16 * k) % 65536) ++ dumpRow mem (p + 16 * k) (min 16 (L - 16 * k)) ++
              newline) := by
  intro m
  induction m with
  | zero =>
    intro L src p _ hm
    have hL : L = 0 := by omega
    subst hL
    simp [dumpLoop]
  | succ m ih =>
    intro L src p hs hm
    have hL : L ≠ 0 := by omega
    rw [hm, if_neg hL, List.nil_append, List.range_succ_eq_map, List.flatMap_cons,
      List.flatMap_map]
    have h0 : (src + 16 * 0) % 65536 = src := by simpa using Nat.mod_eq_of_lt hs
    rw [h0, Nat.mul_zero, Nat.add_zero, Nat.sub_zero]
    by_cases hlt : L < 16
    · have hm0 : m = 0 := by omega
      subst hm0
      rw [dumpLoop_last mem L src p 0 hs (by omega) (by omega)]
      simp [dumpRow, Nat.min_eq_right (Nat.le_of_lt hlt)]
    · obtain ⟨size, rfl⟩ : ∃ size, L = size + 16 := ⟨L - 16, by omega⟩
      have hfill := dumpLoop_fill mem size 15 src p 0 hs (by omega)
      rw [show 15 + 1 + size = size + 16 by omega, show 15 + 1 = 16 by rfl] at hfill
      rw [hfill]
      have hmin : min 16 (size + 16) = 16 := by omega
      have hm' : (size + 15) / 16 = m := by omega
      have hfun : (fun a : Nat => dumpHead ((src + 16 * a.succ) % 65536) ++
            dumpRow mem (p + 16 * a.succ) (min 16 (size + 16 - 16 * a.succ)) ++ newline) =
          fun k => dumpHead (((src + 16) % 65536 + 16 * k) % 65536) ++
            dumpRow mem (p + 16 + 16 * k) (min 16 (size - 16 * k)) ++ newline := by
        funext k
        have e1 : (src + 16 * Nat.succ k) % 65536 = ((src + 16) % 65536 + 16 * k) % 65536 := by
          omega
        have e2 : p + 16 * Nat.succ k = p + 16 + 16 * k := by omega
        have e3 : size + 16 - 16 * Nat.succ k = size - 16 * k := by omega
        simp only [e1, e2, e3]
      rw [hfun, hmin]
      have hih := ih size ((src + 16) % 65536) (p + 16) (Nat.mod_lt _ (by decide)) hm'
      rw [hm'] at hih
      by_cases hz : size = 0
      · subst hz
        have hm0 : m = 0 := by omega
        subst hm0
        simp [dumpRow, dumpLoop]
      · have hpos : size > 0 := Nat.pos_of_ne_zero hz
        rw [if_neg hz, List.nil_append] at hih
        rw [if_pos hpos, ← hih]
        simp [dumpRow, List.append_assoc]


theorem printNumber_hex16 (a : Nat) (h : a < 65536) : printNumber a 16 = hexDigits16 a := by
  unfold printNumber hexDigits16
  have h1 : a % 4294967296 = a := Nat.mod_eq_of_lt (by omega)
  have h2 : ¬ (16 < 2) := by decide
  rw [h1, if_neg h2]
  by_cases c1 : a < 16
  · have d1 : a / 16 = 0 := by omega
    have m1 : a % 16 = a := by omega
    rw [if_pos c1, printNumberLoop, if_pos d1, m1]
  · rw [if_neg c1]
    have d1 : ¬ a / 16 = 0 := by omega
    rw [printNumberLoop, if_neg d1]
    by_cases c2 : a < 256
    · have d2 : a / 16 / 16 = 0 := by omega
      have m2 : a / 16 % 16 = a / 16 := by omega
      rw [if_pos c2, printNumberLoop, if_pos d2, m2]
    · rw [if_neg c2]
      have d2 : ¬ a / 16 / 16 = 0 := by omega
      rw [printNumberLoop, if_neg d2]
      by_cases c3 : a < 4096
      · have d3 : a / 16 / 16 / 16 = 0 := by omega
        have m3 : a / 16 / 16 % 16 = a / 256 := by omega
        rw [if_pos c3, printNumberLoop, if_pos d3, m3]
      · rw [if_neg c3]
        have d3 : ¬ a / 16 / 16 / 16 = 0 := by omega
        have d4 : a / 16 / 16 / 16 / 16 = 0 := by omega
        have m3 : a / 16 / 16 % 16 = a / 256 % 16 := by omega
        have m4 : a / 16 / 16 / 16 % 16 = a / 4096 := by omega
        rw [printNumberLoop, if_neg d3, printNumberLoop, if_pos d4, m3, m4]

theorem digitChar_plain (c : Nat) (h : c < 16) : digitChar c ≠ '\r' ∧ digitChar c ≠ '\n' := by
  have hall : ∀ i : Fin 16, digitChar i.val ≠ '\r' ∧ digitChar i.val ≠ '\n' := by decide
  exact hall ⟨c, h⟩

theorem hexDigits16_plain (a : Nat) (h : a < 65536) :
    ∀ c ∈ hexDigits16 a, c ≠ '\r' ∧ c ≠ '\n' := by
  intro c hc
  unfold hexDigits16 at hc
  split_ifs at hc <;> simp only [List.mem_cons, List.mem_singleton, List.not_mem_nil, or_false] at hc
  · rcases hc with rfl
    exact digitChar_plain _ (by omega)
  · rcases hc with rfl | rfl <;> exact digitChar_plain _ (by omega)
  · rcases hc with rfl | rfl | rfl <;> exact digitChar_plain _ (by omega)
  · rcases hc with rfl | rfl | rfl | rfl <;> exact digitChar_plain _ (by omega)

theorem dumpHead_eq (a : Nat) (h : a < 65536) :
    dumpHead a = "0x".toList ++ hexDigits16 a ++ ": ".toList := by
  unfold dumpHead printUnsigned HEX
  rw [printNumber_hex16 a h]

theorem dumpHead_plain (a : Nat) (h : a < 65536) : ∀ c ∈ dumpHead a, c ≠ '\r' ∧ c ≠ '\n' := by
  intro c hc
  rw [dumpHead_eq a h] at hc
  simp only [List.mem_append] at hc
  rcases hc with (hc | hc) | hc
  · have hall : ∀ x ∈ "0x".toList, x ≠ '\r' ∧ x ≠ '\n' := by decide
    exact hall c hc
  · exact hexDigits16_plain a h c hc
  · have hall : ∀ x ∈ ": ".toList, x ≠ '\r' ∧ x ≠ '\n' := by decide
    exact hall c hc

theorem dumpByte_eq (d : Nat) (h : d < 256) :
    dumpByte d = [digitChar (d / 16), digitChar (d % 16)] := by
  unfold dumpByte printLong HEX
  have h2 : ¬ (16 = 10) := by decide
  rw [if_neg h2, if_neg h2]
  have e1 : (Int.ofNat (d / 16) % 4294967296).toNat = d / 16 := by
    simp only [Int.ofNat_eq_coe]; omega
  have e2 : (Int.ofNat (d % 16) % 4294967296).toNat = d % 16 := by
    simp only [Int.ofNat_eq_coe]; omega
  rw [e1, e2, printNumber_hex16 _ (by omega), printNumber_hex16 _ (by omega)]
  unfold hexDigits16
  rw [if_pos (by omega), if_pos (by omega)]
  rfl

theorem dumpRowFrom_plain (mem : Nat → Nat) (p n cnt : Nat) :
    ∀ c ∈ dumpRowFrom mem p n cnt, c ≠ '\r' ∧ c ≠ '\n' := by
  intro c hc
  unfold dumpRowFrom at hc
  rw [List.mem_flatMap] at hc
  obtain ⟨j, -, hj⟩ := hc
  rw [dumpByte_eq _ (Nat.mod_lt _ (by decide))] at hj
  simp only [List.mem_append, List.mem_cons, List.mem_singleton, List.not_mem_nil, or_false] at hj
  rcases hj with (rfl | rfl) | hj
  · exact digitChar_plain _ (by omega)
  · exact digitChar_plain _ (by omega)
  · split_ifs at hj
    · simp only [List.mem_singleton] at hj
      subst hj
      decide
    · simp at hj


/-! ### C7 -/

/-- C7 (the code at the failing input): `dump` on a zero-length region writes the
address head and nothing else, so its output is never empty; at address `0x100`
it writes `0x100: ` with no line end.  `Variable::print` reaches this for a
registered object of size zero. -/
theorem C7_dump_zero_length_writes_head :
    dump (fun _ => 0) 0x100 0x100 0 = "0x100: ".toList ∧
    (∀ (mem : Nat → Nat) (src ptr : Nat),
      dump mem src ptr 0 = "0x".toList ++ printUnsigned src HEX ++ ": ".toList ∧
      dump mem src ptr 0 ≠ []) ∧
    Variable.print demoPlatform ⟨0x8E0, ⟨2, "loop".toList⟩, "a".toList, 0x8F0, 0⟩ false
      = "loop:a@0x8F0[0]:0x8F0: ".toList := by
  refine ⟨by decide, ?_, by decide⟩
  intro mem src ptr
  have h : dump mem src ptr 0 = "0x".toList ++ printUnsigned src HEX ++ ": ".toList := by
    simp [dump, dumpLoop, dumpHead]
  refine ⟨h, ?_⟩
  rw [h]
  intro hnil
  have := congrArg List.length hnil
  simp at this

/-! ### C8 -/

/-- C8: for a region of `L` bytes `dump` writes `ceil(L/16)` lines, each ended by
the line end of `println`: line `k` is the address head, then `min 16 (L - 16k)`
byte pairs (at least one, at most 16, exactly 16 on every line but the last, and
`L mod 16` on a trailing partial line), then the line end; no line contains a
carriage return or line feed before its end.  For `L > 0` nothing precedes or
follows these lines (for `L = 0` there are no lines; the head alone is written). -/
theorem C8_dump_line_count (mem : Nat → Nat) (src ptr L : Nat) (hs : src < 65536) :
    dump mem src ptr L =
      (if L = 0 then dumpHead src else []) ++
        (List.range ((L + 15) / 16)).flatMap (fun k =>
          dumpHead ((src + 16 * k) % 65536) ++ dumpRow mem (ptr + 16 * k) (min 16 (L - 16 * k)) ++
            newline) ∧
    (∀ k, k < (L + 15) / 16 →
      1 ≤ min 16 (L - 16 * k) ∧ min 16 (L - 16 * k) ≤ 16 ∧
      (k + 1 < (L + 15) / 16 → min 16 (L - 16 * k) = 16)) ∧
    (L % 16 ≠ 0 → min 16 (L - 16 * ((L + 15) / 16 - 1)) = L % 16) ∧
    (∀ k, ∀ c ∈ dumpHead ((src + 16 * k) % 65536) ++
        dumpRow mem (ptr + 16 * k) (min 16 (L - 16 * k)), c ≠ '\r' ∧ c ≠ '\n') := by
  refine ⟨dump_lines mem _ L src ptr hs rfl, ?_, ?_, ?_⟩
  · intro k hk
    omega
  · intro h
    omega
  · intro k c hc
    rcases List.mem_append.mp hc with h | h
    · exact dumpHead_plain _ (Nat.mod_lt _ (by decide)) c h
    · exact dumpRowFrom_plain mem _ 0 _ c h

/-- C8 (witness): 17 bytes at `0x100` give two lines. -/
theorem C8_dump_line_count_witness :
    dump (fun _ => 0) 0x100 0x100 17 =
      (if 17 = 0 then dumpHead 0x100 else []) ++
        (List.range ((17 + 15) / 16)).flatMap (fun k =>
          dumpHead ((0x100 + 16 * k) % 65536) ++
            dumpRow (fun _ => 0) (0x100 + 16 * k) (min 16 (17 - 16 * k)) ++ newline) :=
  (C8_dump_line_count (fun _ => 0) 0x100 0x100 17 (by decide)).1

/-! ### C9 -/

/-- C9 (counterexample): the address is not padded to four digits, and the shown
address wraps at 16 bits: one byte at `0x100` is headed `0x100: `, and the second
line of 17 bytes at `0xFFF8` is headed `0x8: `. -/
theorem C9_head_not_four_digits :
    dump (fun _ => 0) 0x100 0x100 1 = "0x100: 00 \r\n".toList ∧
    ¬ ("0x0100: ".toList <+: dump (fun _ => 0) 0x100 0x100 1) ∧
    dump (fun _ => 0) 0xFFF8 0xFFF8 17 =
      "0xFFF8: 00 00 00 00 00 00 00 00 00 00 00 00 00 00 00 00\r\n0x8: 00 \r\n".toList := by
  decide

/-- C9 (amended): every line `dump` writes starts with `0x`, then the upper-case
hexadecimal digits of the address of the line's first byte without leading zeros
(one to four digits), then `: `; the address shown on line `k` is
`(src + 16 k) mod 2^16`. -/
theorem C9_line_heads (mem : Nat → Nat) (src ptr L : Nat) (hs : src < 65536) :
    dump mem src ptr L =
      (if L = 0 then "0x".toList ++ hexDigits16 src ++ ": ".toList else []) ++
        (List.range ((L + 15) / 16)).flatMap (fun k =>
          "0x".toList ++ hexDigits16 ((src + 16 * k) % 65536) ++ ": ".toList ++
            dumpRow mem (ptr + 16 * k) (min 16 (L - 16 * k)) ++ newline) := by
  have hf : (fun k => dumpHead ((src + 16 * k) % 65536) ++
        dumpRow mem (ptr + 16 * k) (min 16 (L - 16 * k)) ++ newline) =
      fun k => "0x".toList ++ hexDigits16 ((src + 16 * k) % 65536) ++ ": ".toList ++
        dumpRow mem (ptr + 16 * k) (min 16 (L - 16 * k)) ++ newline := by
    funext k
    rw [dumpHead_eq _ (Nat.mod_lt _ (by decide))]
  rw [show dump mem src ptr L = dumpHead src ++ dumpLoop mem L src ptr 0 from rfl,
    dump_lines mem _ L src ptr hs rfl, hf, dumpHead_eq src hs]

/-- C9 (witness): 17 bytes at `0x100`. -/
theorem C9_line_heads_witness :
    dump (fun _ => 0) 0x100 0x100 17 =
      (if 17 = 0 then "0x".toList ++ hexDigits16 0x100 ++ ": ".toList else []) ++
        (List.range ((17 + 15) / 16)).flatMap (fun k =>
          "0x".toList ++ hexDigits16 ((0x100 + 16 * k) % 65536) ++ ": ".toList ++
            dumpRow (fun _ => 0) (0x100 + 16 * k) (min 16 (17 - 16 * k)) ++ newline) :=
  C9_line_heads (fun _ => 0) 0x100 0x100 17 (by decide)

/-! ### C10 -/

/-- C10: `check_stack(room)` is `false` exactly when the marker address is at
most the break pointer plus `room`, and `true` otherwise, all in the 16-bit `int`
arithmetic of the target; the break pointer is the heap start when `__brkval` is
zero and `__brkval` otherwise.  When the addresses are below `0x8000` and the sum
does not overflow, this is the comparison of the plain numbers. -/
theorem C10_check_stack (pf : Platform) (marker : Nat) (room : Int) :
    (check_stack pf marker room = false ↔
      toInt16 (Int.ofNat marker) ≤ toInt16 (HEAPEND pf + room)) ∧
    (check_stack pf marker room = true ↔
      ¬ toInt16 (Int.ofNat marker) ≤ toInt16 (HEAPEND pf + room)) ∧
    (pf.brkval = 0 → HEAPEND pf = toInt16 (Int.ofNat pf.heap_start)) ∧
    (pf.brkval ≠ 0 → HEAPEND pf = toInt16 (Int.ofNat pf.brkval)) ∧
    (marker < 32768 → pf.heap_start < 32768 → pf.brkval < 32768 →
      -32768 ≤ Int.ofNat (if pf.brkval = 0 then pf.heap_start else pf.brkval) + room →
      Int.ofNat (if pf.brkval = 0 then pf.heap_start else pf.brkval) + room ≤ 32767 →
      (check_stack pf marker room = false ↔
        Int.ofNat marker ≤ Int.ofNat (if pf.brkval = 0 then pf.heap_start else pf.brkval) + room))
    := by
  refine ⟨?_, ?_, ?_, ?_, ?_⟩
  · simp [check_stack]
  · simp [check_stack]
  · intro h; simp [HEAPEND, h]
  · intro h; simp [HEAPEND, h]
  · intro hm hh hb h1 h2
    simp only [check_stack, HEAPEND, toInt16, Int.ofNat_eq_coe, gt_iff_lt, decide_eq_false_iff_not,
      not_lt] at h1 h2 ⊢
    split_ifs at h1 h2 ⊢ <;> omega

/-- C10 (witness): on the sample target with the marker at `0x8F0`, a room of 128
bytes is available and a room of 1768 bytes is not. -/
theorem C10_check_stack_witness :
    check_stack demoPlatform 0x8F0 128 = true ∧ check_stack demoPlatform 0x8F0 1768 = false :=
  ⟨(C10_check_stack demoPlatform 0x8F0 128).2.1.mpr (by decide),
    (C10_check_stack demoPlatform 0x8F0 1768).1.mpr (by decide)⟩

/-! ### C11 -/

/-- C11 (counterexample): with the marker at `0x8F0` and the break pointer at
`0x208`, a room of 2000 gives `false` but the larger room 32767 gives `true`,
because `HEAPEND + room` leaves the 16-bit `int` range and wraps. -/
theorem C11_not_monotonic_on_overflow :
    (2000 : Int) ≤ 32767 ∧ check_stack demoPlatform 0x8F0 2000 = false ∧
    check_stack demoPlatform 0x8F0 32767 = true := by
  decide

/-- C11 (amended): `check_stack` is monotonic in `room` as long as `HEAPEND + room`
stays in the 16-bit `int` range for both rooms: for `room1 ≤ room2` with
`-32768 ≤ HEAPEND + room1` and `HEAPEND + room2 ≤ 32767`, a `false` result for
`room1` gives a `false` result for `room2`. -/
theorem C11_check_stack_monotonic (pf : Platform) (marker : Nat) (room1 room2 : Int)
    (hle : room1 ≤ room2) (hlo : -32768 ≤ HEAPEND pf + room1) (hhi : HEAPEND pf + room2 ≤ 32767)
    (h1 : check_stack pf marker room1 = false) : check_stack pf marker room2 = false := by
  simp only [check_stack, toInt16, gt_iff_lt, decide_eq_false_iff_not, not_lt] at h1 ⊢
  omega

/-- C11 (witness): on the sample target rooms 2000 and 3000 are both refused. -/
theorem C11_check_stack_monotonic_witness : check_stack demoPlatform 0x8F0 3000 = false :=
  C11_check_stack_monotonic demoPlatform 0x8F0 2000 3000 (by decide) (by decide) (by decide)
    (by decide)

/-! ### C12 -/

theorem runScopes_restores (base : List Variable) :
    ∀ (ops : List ScopeOp) (live : List VariableObject) (d d1 : Debug),
      LinkedOn base live d.m_var → runScopes ops live d = some ([], d1) →
      d1 = { d with m_var := base } := by
  intro ops
  induction ops with
  | nil =>
    intro live d d1 hl h
    simp only [runScopes, Option.some.injEq, Prod.mk.injEq] at h
    obtain ⟨rfl, rfl⟩ := h
    simp only [LinkedOn] at hl
    cases d
    simp_all
  | cons op ops ih =>
    intro live d d1 hl h
    cases op with
    | enter v =>
      rw [runScopes] at h
      have := ih _ _ d1 (show LinkedOn base ((v.construct d).1 :: live) (v.construct d).2.m_var from
        ⟨rfl, hl⟩) h
      rw [this]
      rfl
    | leave =>
      cases live with
      | nil => simp [runScopes] at h
      | cons o live =>
        rw [runScopes] at h
        have := ih _ _ d1 (show LinkedOn base live (o.destruct d).m_var from hl.2) h
        rw [this]
        rfl

/-- C12: a sequence of constructions and destructions of `Variable` objects in
strict LIFO order that leaves no object live restores the console, and so the
registry chain, to exactly what it was before; started on an empty registry it
ends with `m_var` empty, and a lookup of any name then finds nothing. -/
theorem C12_lifo_restores_registry (ops : List ScopeOp) (d d1 : Debug)
    (h : runScopes ops [] d = some ([], d1)) :
    d1 = d ∧ d1.m_var = d.m_var ∧
    (d.m_var = [] → d1.m_var = [] ∧
      ∀ (pf : Platform) (name : List Char) (is_pointer : Bool),
        do_lookup_variables pf name is_pointer d1.m_var = (false, [])) := by
  have h1 := runScopes_restores d.m_var ops [] d d1 rfl h
  have h2 : d1 = d := by rw [h1]
  refine ⟨h2, by rw [h2], ?_⟩
  intro he
  rw [h2, he]
  exact ⟨rfl, fun _ _ _ => rfl⟩

/-- C12 (witness): two nested registrations on the freshly constructed console
leave the registry empty, and a lookup of `x` afterwards finds nothing. -/
theorem C12_lifo_restores_registry_witness :
    runScopes
      [ScopeOp.enter ⟨0x8E0, ⟨2, "loop".toList⟩, "x".toList, 0x8F0, 2⟩,
        ScopeOp.enter ⟨0x8D0, ⟨3, "f".toList⟩, "y".toList, 0x8F2, 1⟩, ScopeOp.leave,
        ScopeOp.leave] [] Debug.init = some ([], Debug.init) ∧
    do_lookup_variables demoPlatform "x".toList false Debug.init.m_var = (false, []) :=
  ⟨rfl, ((C12_lifo_restores_registry
    [ScopeOp.enter ⟨0x8E0, ⟨2, "loop".toList⟩, "x".toList, 0x8F0, 2⟩,
      ScopeOp.enter ⟨0x8D0, ⟨3, "f".toList⟩, "y".toList, 0x8F2, 1⟩, ScopeOp.leave, ScopeOp.leave]
    Debug.init Debug.init rfl).2.2 rfl).2 demoPlatform "x".toList false⟩

/-! ### Variable lookup -/

theorem strcmp_eq_zero_iff : ∀ (a b : List Char), NUL ∉ a → NUL ∉ b →
    (strcmp a b = 0 ↔ a = b) := by
  intro a
  induction a with
  | nil =>
    intro b _ hb
    cases b with
    | nil =>
      simp only [strcmp, List.headD_nil, zero_sub, neg_eq_zero, iff_true]
      have h3 : NUL.toNat = 0 := by decide
      rw [h3]; rfl
    | cons c b =>
      have hc : c ≠ NUL := fun h => hb (h ▸ List.mem_cons_self _ _)
      simp only [strcmp, List.headD_cons, zero_sub, neg_eq_zero]
      constructor
      · intro h
        have h2 : Int.ofNat c.toNat - Int.ofNat NUL.toNat = 0 := by
          have h3 : NUL.toNat = 0 := by decide
          rw [h3]; simpa using h
        exact absurd h2 (char_diff_ne_zero hc)
      · intro h; cases h
  | cons c a ih =>
    intro b ha hb
    have hc : c ≠ NUL := fun h => ha (h ▸ List.mem_cons_self _ _)
    have ha2 : NUL ∉ a := fun h => ha (List.mem_cons_of_mem _ h)
    cases b with
    | nil =>
      simp only [strcmp, List.headD_nil, ne_eq, hc, not_false_eq_true, if_true]
      constructor
      · intro h; exact absurd h (char_diff_ne_zero hc)
      · intro h; cases h
    | cons e b =>
      have hb2 : NUL ∉ b := fun h => hb (List.mem_cons_of_mem _ h)
      simp only [strcmp, List.headD_cons, List.tail_cons, ne_eq]
      by_cases hce : c = e
      · subst hce
        simp [hc, ih b ha2 hb2]
      · simp only [hce, not_false_eq_true, if_true, List.cons.injEq, false_and, iff_false]
        exact char_diff_ne_zero hce

theorem do_lookup_variables_eq (pf : Platform) (name : List Char) (is_pointer : Bool)
    (hn : NUL ∉ name) :
    ∀ (vars : List Variable), (∀ v ∈ vars, NUL ∉ v.m_name) →
      do_lookup_variables pf name is_pointer vars =
        (vars.any (fun v => decide (v.m_name = name)),
          (vars.filter (fun v => decide (v.m_name = name ∧
              (is_pointer = false ∨ v.m_size = sizeof_ptr)))).flatMap
            (fun v => v.print pf is_pointer)) := by
  intro vars
  induction vars with
  | nil => intro _; rfl
  | cons v vars ih =>
    intro hv
    have hvn : NUL ∉ v.m_name := hv v (List.mem_cons_self _ _)
    have ih2 := ih (fun x hx => hv x (List.mem_cons_of_mem _ hx))
    have hs : strcmp name v.m_name = 0 ↔ v.m_name = name := by
      rw [strcmp_eq_zero_iff name v.m_name hn hvn]
      exact eq_comm
    rw [do_lookup_variables]
    by_cases hm : v.m_name = name
    · rw [if_pos (hs.mpr hm), ih2]
      by_cases hp : is_pointer = false ∨ v.m_size = sizeof_ptr
      · simp [hm, hp, List.filter_cons]
      · simp [hm, hp, List.filter_cons]
    · rw [if_neg (fun h => hm (hs.mp h)), ih2]
      simp [hm, List.filter_cons]

theorem cstr_of_no_NUL (s : List Char) (h : NUL ∉ s) : cstr s = s := by
  unfold cstr
  rw [List.takeWhile_eq_self_iff]
  intro c hc
  have : c ≠ NUL := fun e => h (e ▸ hc)
  simpa [NUL] using this

theorem strncmp_head_ne (a b : Char) (s t : List Char) (n : Nat) (h : a ≠ b) :
    strncmp (a :: s) (b :: t) (n + 1) ≠ 0 := by
  simp only [strncmp, List.headD_cons, ne_eq, h, not_false_eq_true, if_true]
  exact char_diff_ne_zero h

theorem dispatch_lookup (cfg : Config) (c : Char) (name : List Char)
    (hcfg : cfg.NO_LOOKUP_VARIABLES = false) (hc : c = '?' ∨ c = '@') :
    dispatch cfg (c :: name) = Action.lookup := by
  have n1 : ¬ strncmp (c :: name) "go".toList (c :: name).length = 0 := by
    rcases hc with rfl | rfl <;> exact strncmp_head_ne _ 'g' _ "o".toList _ (by decide)
  have n2 : ¬ strncmp (c :: name) "backtrace".toList (c :: name).length = 0 := by
    rcases hc with rfl | rfl <;> exact strncmp_head_ne _ 'b' _ "acktrace".toList _ (by decide)
  have n3 : ¬ strncmp (c :: name) "data".toList (c :: name).length = 0 := by
    rcases hc with rfl | rfl <;> exact strncmp_head_ne _ 'd' _ "ata".toList _ (by decide)
  have n4 : ¬ strncmp (c :: name) "heap".toList (c :: name).length = 0 := by
    rcases hc with rfl | rfl <;> exact strncmp_head_ne _ 'h' _ "eap".toList _ (by decide)
  have n5 : ¬ strncmp (c :: name) "memory".toList (c :: name).length = 0 := by
    rcases hc with rfl | rfl <;> exact strncmp_head_ne _ 'm' _ "emory".toList _ (by decide)
  have n6 : ¬ strncmp (c :: name) "commands".toList (c :: name).length = 0 := by
    rcases hc with rfl | rfl <;> exact strncmp_head_ne _ 'c' _ "ommands".toList _ (by decide)
  have n7 : ¬ strncmp (c :: name) "help".toList (c :: name).length = 0 := by
    rcases hc with rfl | rfl <;> exact strncmp_head_ne _ 'h' _ "elp".toList _ (by decide)
  have n8 : ¬ strncmp (c :: name) "stack".toList (c :: name).length = 0 := by
    rcases hc with rfl | rfl <;> exact strncmp_head_ne _ 's' _ "tack".toList _ (by decide)
  have n9 : ¬ strncmp (c :: name) "variables".toList (c :: name).length = 0 := by
    rcases hc with rfl | rfl <;> exact strncmp_head_ne _ 'v' _ "ariables".toList _ (by decide)
  have n10 : ¬ strncmp (c :: name) "quit".toList (c :: name).length = 0 := by
    rcases hc with rfl | rfl <;> exact strncmp_head_ne _ 'q' _ "uit".toList _ (by decide)
  have n11 : ¬ strncmp (c :: name) "where".toList (c :: name).length = 0 := by
    rcases hc with rfl | rfl <;> exact strncmp_head_ne _ 'w' _ "here".toList _ (by decide)
  unfold dispatch
  rw [if_neg n1, if_neg (fun h => n2 h.2), if_neg (fun h => n3 h.2), if_neg (fun h => n4 h.2),
    if_neg (fun h => n5 h.2), if_neg (fun h => h.2.elim n6 n7), if_neg (fun h => n8 h.2),
    if_neg (fun h => n9 h.2), if_neg (fun h => n10 h.2), if_neg (fun h => n11 h.2),
    if_pos ⟨by simp [hcfg], by simpa using hc⟩]

theorem exec_lookup (cfg : Config) (pf : Platform) (marker : Nat) (file : Option CString)
    (line : Int) (func : Option CString) (c : Char) (name : List Char) (d : Debug)
    (hn : NUL ∉ name) (hv : ∀ v ∈ d.m_var, NUL ∉ v.m_name) :
    exec cfg pf marker file line func (c :: name) d Action.lookup =
      (Flow.again, (d.note Action.lookup).emit
        ((do_lookup_variables pf name (c == '@') d.m_var).2 ++
          (if ∃ v ∈ d.m_var, v.m_name = name then []
            else name ++ ": unknown variable".toList ++ newline))) := by
  have h1 : (do_lookup_variables pf name (c == '@') d.m_var).1 =
      d.m_var.any (fun v => decide (v.m_name = name)) := by
    rw [do_lookup_variables_eq pf name _ hn d.m_var hv]
  simp only [exec, List.tail_cons, List.headD_cons, cstr_of_no_NUL name hn, h1]
  by_cases he : ∃ v ∈ d.m_var, v.m_name = name
  · have ha : d.m_var.any (fun v => decide (v.m_name = name)) = true := by
      simpa [List.any_eq_true] using he
    simp [ha, he]
  · have ha : d.m_var.any (fun v => decide (v.m_name = name)) = false := by
      rw [Bool.eq_false_iff]
      intro h
      exact he (by simpa [List.any_eq_true] using h)
    rw [if_neg he, ha]
    simp

/-! ### C13 -/

/-- C13: lookup without the pointer flag writes the print-out of exactly the
registered descriptors whose name equals the requested name character for
character, each once, in registry order (most recently registered first),
whatever function registered them; descriptors with any other name contribute
nothing.  A typed line `?name` selects the lookup branch and writes this text,
followed by the unknown-variable message only when no descriptor has the name. -/
theorem C13_lookup_exact_names (cfg : Config) (pf : Platform) (marker : Nat)
    (file : Option CString) (line : Int) (func : Option CString) (name : List Char) (d : Debug)
    (hn : NUL ∉ name) (hv : ∀ v ∈ d.m_var, NUL ∉ v.m_name)
    (hcfg : cfg.NO_LOOKUP_VARIABLES = false) :
    (do_lookup_variables pf name false d.m_var).2 =
      (d.m_var.filter (fun v => decide (v.m_name = name))).flatMap (fun v => v.print pf false) ∧
    dispatch cfg ('?' :: name) = Action.lookup ∧
    exec cfg pf marker file line func ('?' :: name) d Action.lookup =
      (Flow.again, (d.note Action.lookup).emit
        ((d.m_var.filter (fun v => decide (v.m_name = name))).flatMap
            (fun v => v.print pf false) ++
          (if ∃ v ∈ d.m_var, v.m_name = name then []
            else name ++ ": unknown variable".toList ++ newline))) := by
  have h1 : (do_lookup_variables pf name false d.m_var).2 =
      (d.m_var.filter (fun v => decide (v.m_name = name))).flatMap
        (fun v => v.print pf false) := by
    rw [do_lookup_variables_eq pf name false hn d.m_var hv]
    simp
  refine ⟨h1, dispatch_lookup cfg '?' name hcfg (Or.inl rfl), ?_⟩
  rw [exec_lookup cfg pf marker file line func '?' name d hn hv]
  have h2 : ('?' == '@') = false := by decide
  rw [h2, h1]

/-- C13 (witness): on the sample registry `?x` writes the two descriptors named
`x`, the one registered last first. -/
theorem C13_lookup_exact_names_witness :
    (do_lookup_variables demoPlatform2 "x".toList false demoConsole2.m_var).2 =
      "f:x@0x8E2=7 (0x7)\r\nloop:x@0x8F0=10 (0xA)\r\n".toList :=
  (C13_lookup_exact_names Config.default demoPlatform2 0x8F0 none 0 none "x".toList demoConsole2
    (by decide) (by decide) rfl).1.trans (by decide)

/-! ### C14 -/

/-- C14 (counterexample): with the break value at `0x9000` (heap in external
memory) and the marker at `0x21F0`, the four numbers reported after `begin` are
256, -29440, 16 and -28176; their sum is -57344, not `RAMEND - RAMSTART + 1 = 8192`. -/
theorem C14_sum_fails_above_int_range :
    usageData (Debug.init.attach xmemPlatform 1) = 256 ∧ usageHeap xmemPlatform = -29440 ∧
    usageStack xmemPlatform (toInt16 0x21F0) = 16 ∧
    usageFree xmemPlatform (toInt16 0x21F0) = -28176 ∧
    usageData (Debug.init.attach xmemPlatform 1) + usageHeap xmemPlatform +
      usageStack xmemPlatform (toInt16 0x21F0) + usageFree xmemPlatform (toInt16 0x21F0)
      ≠ xmemPlatform.RAMEND - xmemPlatform.RAMSTART + 1 := by
  decide

/-- C14 (amended): `do_memory_usage` prints the four numbers `data`, `heap`,
`stack`, `free` computed in 16-bit `int` arithmetic, with `data` captured at
`begin`.  Their sum equals `RAMEND - RAMSTART + 1` modulo `2^16` for all addresses,
and exactly whenever all addresses lie in `0 .. 0x7FFF` and `RAMEND < 0x7FFF`; then
`data = heap_start - RAMSTART`, `heap = break_pointer - heap_start` (0 when the
break value is 0), `stack = RAMEND - marker + 1`, `free = marker - break_pointer`.
If moreover `RAMSTART ≤ heap_start ≤ break_pointer ≤ marker ≤ RAMEND`, the data,
heap, free and stack regions are pairwise disjoint and cover `RAMSTART..RAMEND`. -/
theorem C14_memory_usage_partition (pf : Platform) (dev marker : Nat) (d0 : Debug) :
    do_memory_usage pf (d0.attach pf dev) (toInt16 (Int.ofNat marker)) =
      "data=".toList ++ printLong (usageData (d0.attach pf dev)) DEC ++
      ",heap=".toList ++ printLong (usageHeap pf) DEC ++
      ",stack=".toList ++ printLong (usageStack pf (toInt16 (Int.ofNat marker))) DEC ++
      ",free=".toList ++ printLong (usageFree pf (toInt16 (Int.ofNat marker))) DEC ++ newline ∧
    (usageData (d0.attach pf dev) + usageHeap pf + usageStack pf (toInt16 (Int.ofNat marker)) +
        usageFree pf (toInt16 (Int.ofNat marker)) - (pf.RAMEND - pf.RAMSTART + 1)) % 65536 = 0 ∧
    (0 ≤ pf.RAMSTART → pf.RAMSTART ≤ 32767 → 0 ≤ pf.RAMEND → pf.RAMEND < 32767 →
      pf.heap_start < 32768 → pf.brkval < 32768 → marker < 32768 →
      usageData (d0.attach pf dev) = Int.ofNat pf.heap_start - pf.RAMSTART ∧
      usageHeap pf =
        Int.ofNat (if pf.brkval = 0 then pf.heap_start else pf.brkval) - Int.ofNat pf.heap_start ∧
      usageStack pf (toInt16 (Int.ofNat marker)) = pf.RAMEND - Int.ofNat marker + 1 ∧
      usageFree pf (toInt16 (Int.ofNat marker)) =
        Int.ofNat marker - Int.ofNat (if pf.brkval = 0 then pf.heap_start else pf.brkval) ∧
      usageData (d0.attach pf dev) + usageHeap pf + usageStack pf (toInt16 (Int.ofNat marker)) +
        usageFree pf (toInt16 (Int.ofNat marker)) = pf.RAMEND - pf.RAMSTART + 1 ∧
      (pf.RAMSTART ≤ Int.ofNat pf.heap_start →
        pf.heap_start ≤ (if pf.brkval = 0 then pf.heap_start else pf.brkval) →
        (if pf.brkval = 0 then pf.heap_start else pf.brkval) ≤ marker →
        Int.ofNat marker ≤ pf.RAMEND →
        ∀ a : Int,
          (pf.RAMSTART ≤ a ∧ a ≤ pf.RAMEND ↔
            inRegion pf.RAMSTART (usageData (d0.attach pf dev)) a ∨
            inRegion (Int.ofNat pf.heap_start) (usageHeap pf) a ∨
            inRegion (Int.ofNat (if pf.brkval = 0 then pf.heap_start else pf.brkval))
              (usageFree pf (toInt16 (Int.ofNat marker))) a ∨
            inRegion (Int.ofNat marker) (usageStack pf (toInt16 (Int.ofNat marker))) a) ∧
          ¬ (inRegion pf.RAMSTART (usageData (d0.attach pf dev)) a ∧
            inRegion (Int.ofNat pf.heap_start) (usageHeap pf) a) ∧
          ¬ (inRegion pf.RAMSTART (usageData (d0.attach pf dev)) a ∧
            inRegion (Int.ofNat (if pf.brkval = 0 then pf.heap_start else pf.brkval))
              (usageFree pf (toInt16 (Int.ofNat marker))) a) ∧
          ¬ (inRegion pf.RAMSTART (usageData (d0.attach pf dev)) a ∧
            inRegion (Int.ofNat marker) (usageStack pf (toInt16 (Int.ofNat marker))) a) ∧
          ¬ (inRegion (Int.ofNat pf.heap_start) (usageHeap pf) a ∧
            inRegion (Int.ofNat (if pf.brkval = 0 then pf.heap_start else pf.brkval))
              (usageFree pf (toInt16 (Int.ofNat marker))) a) ∧
          ¬ (inRegion (Int.ofNat pf.heap_start) (usageHeap pf) a ∧
            inRegion (Int.ofNat marker) (usageStack pf (toInt16 (Int.ofNat marker))) a) ∧
          ¬ (inRegion (Int.ofNat (if pf.brkval = 0 then pf.heap_start else pf.brkval))
              (usageFree pf (toInt16 (Int.ofNat marker))) a ∧
            inRegion (Int.ofNat marker) (usageStack pf (toInt16 (Int.ofNat marker))) a))) := by
  refine ⟨rfl, ?_, ?_⟩
  · simp only [usageData, usageHeap, usageStack, usageFree, Debug.attach, HEAPEND, toInt16,
      Int.ofNat_eq_coe]
    split_ifs <;> omega
  · intro h0 h0' hE' hE hh hb hm
    have e1 : usageData (d0.attach pf dev) = Int.ofNat pf.heap_start - pf.RAMSTART := by
      simp only [usageData, Debug.attach, toInt16, Int.ofNat_eq_coe]
      omega
    have e2 : usageHeap pf =
        Int.ofNat (if pf.brkval = 0 then pf.heap_start else pf.brkval) -
          Int.ofNat pf.heap_start := by
      simp only [usageHeap, HEAPEND, toInt16, Int.ofNat_eq_coe]
      split_ifs <;> omega
    have e3 : usageStack pf (toInt16 (Int.ofNat marker)) = pf.RAMEND - Int.ofNat marker + 1 := by
      simp only [usageStack, toInt16, Int.ofNat_eq_coe]
      omega
    have e4 : usageFree pf (toInt16 (Int.ofNat marker)) =
        Int.ofNat marker - Int.ofNat (if pf.brkval = 0 then pf.heap_start else pf.brkval) := by
      simp only [usageFree, HEAPEND, toInt16, Int.ofNat_eq_coe]
      split_ifs <;> omega
    refine ⟨e1, e2, e3, e4, ?_, ?_⟩
    · rw [e1, e2, e3, e4]; omega
    · intro o1 o2 o3 o4 a
      rw [e1, e2, e3, e4]
      simp only [inRegion, Int.ofNat_eq_coe] at *
      have o2' : (pf.heap_start : Int) ≤ ((if pf.brkval = 0 then pf.heap_start else pf.brkval : Nat) : Int) := by
        exact_mod_cast o2
      have o3' : ((if pf.brkval = 0 then pf.heap_start else pf.brkval : Nat) : Int) ≤ (marker : Int) := by
        exact_mod_cast o3
      generalize ((if pf.brkval = 0 then pf.heap_start else pf.brkval : Nat) : Int) = bp at *
      omega

/-- C14 (witness): on the sample target, marker at `0x8F0`, the four numbers sum to
the 2048 bytes of RAM. -/
theorem C14_memory_usage_partition_witness :
    usageData (Debug.init.attach demoPlatform 1) + usageHeap demoPlatform +
      usageStack demoPlatform (toInt16 (Int.ofNat 0x8F0)) +
      usageFree demoPlatform (toInt16 (Int.ofNat 0x8F0)) =
      demoPlatform.RAMEND - demoPlatform.RAMSTART + 1 :=
  ((C14_memory_usage_partition demoPlatform 1 0x8F0 Debug.init).2.2 (by decide) (by decide)
    (by decide) (by decide) (by decide) (by decide) (by decide)).2.2.2.2.1

/-! ### Decimal output -/

theorem digitChar_eq_nat (c : Nat) (h : c < 10) : digitChar c = Nat.digitChar c := by
  have hall : ∀ i : Fin 10, digitChar i.val = Nat.digitChar i.val := by decide
  exact hall ⟨c, h⟩

theorem printNumberLoop_dec : ∀ (fuel n : Nat) (acc : List Char),
    printNumberLoop fuel n 10 acc = Nat.toDigitsCore 10 fuel n acc := by
  intro fuel
  induction fuel with
  | zero => intro n acc; rfl
  | succ fuel ih =>
    intro n acc
    simp only [printNumberLoop, Nat.toDigitsCore]
    rw [digitChar_eq_nat (n % 10) (Nat.mod_lt _ (by decide)), ih]

theorem toDigitsCore_fuel : ∀ (f1 f2 n : Nat) (acc : List Char),
    1 ≤ f1 → 1 ≤ f2 → n < 10 ^ f1 → n < 10 ^ f2 →
    Nat.toDigitsCore 10 f1 n acc = Nat.toDigitsCore 10 f2 n acc := by
  intro f1
  induction f1 with
  | zero => intro f2 n acc h; omega
  | succ f1 ih =>
    intro f2 n acc _ h2 hn1 hn2
    obtain ⟨g2, rfl⟩ : ∃ g, f2 = g + 1 := ⟨f2 - 1, by omega⟩
    simp only [Nat.toDigitsCore]
    by_cases hz : n / 10 = 0
    · rw [if_pos hz, if_pos hz]
    · rw [if_neg hz, if_neg hz]
      have hn : 10 ≤ n := by omega
      have a1 : n / 10 < 10 ^ f1 := by
        rw [Nat.div_lt_iff_lt_mul (by decide)]
        rw [Nat.pow_succ] at hn1; exact hn1
      have a2 : n / 10 < 10 ^ g2 := by
        rw [Nat.div_lt_iff_lt_mul (by decide)]
        rw [Nat.pow_succ] at hn2; exact hn2
      have b1 : 1 ≤ f1 := by
        rcases Nat.eq_zero_or_pos f1 with h | h
        · subst h; simp at a1; omega
        · exact h
      have b2 : 1 ≤ g2 := by
        rcases Nat.eq_zero_or_pos g2 with h | h
        · subst h; simp at a2; omega
        · exact h
      exact ih g2 (n / 10) _ b1 b2 a1 a2

theorem printNumber_dec (n : Nat) (h : n < 4294967296) : printNumber n 10 = Nat.toDigits 10 n := by
  unfold printNumber Nat.toDigits
  have h1 : n % 4294967296 = n := Nat.mod_eq_of_lt h
  have h2 : ¬ (10 < 2) := by decide
  rw [h1, if_neg h2, printNumberLoop_dec]
  apply toDigitsCore_fuel 32 (n + 1) n [] (by decide) (by omega)
  · calc n < 4294967296 := h
      _ ≤ 10 ^ 32 := by decide
  · calc n < 2 ^ n := Nat.lt_two_pow n
      _ ≤ 10 ^ n := Nat.pow_le_pow_left (by decide) n
      _ ≤ 10 ^ (n + 1) := Nat.pow_le_pow_right (by decide) (Nat.le_succ n)

/-! ### C15 -/

theorem read8_lt (mem : Nat → Nat) (a : Nat) : read8 mem a < 256 := Nat.mod_lt _ (by decide)

theorem read16_lt (mem : Nat → Nat) (a : Nat) : read16 mem a < 65536 := by
  have h1 := read8_lt mem a
  have h2 := read8_lt mem (a + 1)
  unfold read16
  omega

theorem printLong_dec_int16 (w : Nat) (h : w < 65536) :
    printLong (toInt16 (Int.ofNat w)) DEC =
      if w < 32768 then Nat.toDigits 10 w else '-' :: Nat.toDigits 10 (65536 - w) := by
  unfold printLong DEC
  rw [if_pos rfl]
  by_cases hw : w < 32768
  · have e : toInt16 (Int.ofNat w) = Int.ofNat w := by
      simp only [toInt16, Int.ofNat_eq_coe]; omega
    have hn : ¬ (Int.ofNat w < 0) := by simp
    have e3 : (Int.ofNat w).toNat = w := rfl
    rw [if_pos hw, e, if_neg hn, e3, printNumber_dec w (by omega)]
  · have e : toInt16 (Int.ofNat w) = Int.ofNat w - 65536 := by
      simp only [toInt16, Int.ofNat_eq_coe]; omega
    have hn : Int.ofNat w - 65536 < 0 := by simp only [Int.ofNat_eq_coe]; omega
    have e2 : (-(Int.ofNat w - 65536)).toNat = 65536 - w := by
      simp only [Int.ofNat_eq_coe]; omega
    rw [if_neg hw, e, if_pos hn, e2, printNumber_dec _ (by omega)]

theorem printLong_hex_addr (a : Nat) (h : a < 32768) :
    printLong (toInt16 (Int.ofNat a)) HEX = hexDigits16 a := by
  unfold printLong HEX
  have h2 : ¬ (16 = 10) := by decide
  have e : (toInt16 (Int.ofNat a) % 4294967296).toNat = a := by
    simp only [toInt16, Int.ofNat_eq_coe]; omega
  rw [if_neg h2, e, printNumber_hex16 a (by omega)]

/-- C15 (counterexample): a 2-byte variable `x` of `loop` at `0x8F0` holding 40000
is printed with the decimal -25536, not 40000, and a variable at address `0x9000`
is printed with the address `FFFF9000`. -/
theorem C15_two_byte_value_printed_signed :
    Variable.print ⟨0x100, 0x8FF, 0x200, 0x208, demoMemHigh⟩
        ⟨0x8E8, ⟨2, "loop".toList⟩, "x".toList, 0x8F0, 2⟩ false
      = "loop:x@0x8F0=-25536 (0x9C40)\r\n".toList ∧
    Variable.print ⟨0x100, 0x8FF, 0x200, 0x208, demoMemHigh⟩
        ⟨0x8E8, ⟨2, "loop".toList⟩, "x".toList, 0x8F0, 2⟩ false
      ≠ "loop:x@0x8F0=40000 (0x9C40)\r\n".toList ∧
    Variable.print demoPlatform ⟨0x8E8, ⟨2, "loop".toList⟩, "x".toList, 0x9000, 1⟩ false
      = "loop:x@0xFFFF9000=0 (0x0)\r\n".toList := by
  decide

/-- C15 (amended): printing a registered variable of size 1 or 2 without the
pointer flag writes one line: function, `:`, name, `@0x`, the address as
`print((int) m_ref, HEX)` gives it (the hexadecimal digits of the address when it
is below `0x8000`), `=`, the value in decimal, ` (0x`, the value in upper-case
hexadecimal, `)` and the line end.  The value is read from memory at print time:
for size 1 it is the byte, unsigned; for size 2 the decimal is the word read as a
signed 16-bit `int` and the hexadecimal is the same word read unsigned. -/
theorem C15_print_small_variable (pf : Platform) (v : Variable) :
    (v.m_size = 1 →
      v.print pf false =
        v.m_func.chars ++ [':'] ++ v.m_name ++ "@0x".toList ++
          printLong (toInt16 (Int.ofNat v.m_ref)) HEX ++ ['='] ++
          Nat.toDigits 10 (read8 pf.mem v.m_ref) ++ " (0x".toList ++
          hexDigits16 (read8 pf.mem v.m_ref) ++ [')'] ++ newline) ∧
    (v.m_size = 2 →
      v.print pf false =
        v.m_func.chars ++ [':'] ++ v.m_name ++ "@0x".toList ++
          printLong (toInt16 (Int.ofNat v.m_ref)) HEX ++ ['='] ++
          (if read16 pf.mem v.m_ref < 32768 then Nat.toDigits 10 (read16 pf.mem v.m_ref)
            else '-' :: Nat.toDigits 10 (65536 - read16 pf.mem v.m_ref)) ++ " (0x".toList ++
          hexDigits16 (read16 pf.mem v.m_ref) ++ [')'] ++ newline) ∧
    (v.m_ref < 32768 → printLong (toInt16 (Int.ofNat v.m_ref)) HEX = hexDigits16 v.m_ref) := by
  refine ⟨?_, ?_, printLong_hex_addr v.m_ref⟩
  · intro h1
    have hp : ¬ (v.m_size = sizeof_ptr ∧ false = true) := by simp
    unfold Variable.print
    rw [if_neg hp, if_pos h1]
    simp only [printUnsigned, DEC, HEX]
    rw [printNumber_dec _ (by have := read8_lt pf.mem v.m_ref; omega),
      printNumber_hex16 _ (by have := read8_lt pf.mem v.m_ref; omega)]
    simp [List.append_assoc]
  · intro h2
    have hp : ¬ (v.m_size = sizeof_ptr ∧ false = true) := by simp
    have h1 : ¬ v.m_size = 1 := by omega
    unfold Variable.print
    rw [if_neg hp, if_neg h1, if_pos h2, printLong_dec_int16 _ (read16_lt pf.mem v.m_ref)]
    simp only [printUnsigned, HEX]
    rw [printNumber_hex16 _ (read16_lt pf.mem v.m_ref)]
    simp [List.append_assoc]

/-- C15 (witness): the variable `x` (2 bytes, value 10) registered in `loop` at
`0x8F0` is printed as `loop:x@0x8F0=10 (0xA)`. -/
theorem C15_print_small_variable_witness :
    Variable.print demoPlatform2 ⟨0x8E8, ⟨2, "loop".toList⟩, "x".toList, 0x8F0, 2⟩ false =
      "loop:x@0x8F0=10 (0xA)\r\n".toList :=
  ((C15_print_small_variable demoPlatform2
    ⟨0x8E8, ⟨2, "loop".toList⟩, "x".toList, 0x8F0, 2⟩).2.1 rfl).trans (by decide)

/-! ### C16 -/

theorem dispatch_no_match (cfg : Config) (buf : List Char) (hnul : NUL ∉ buf)
    (hno : ∀ p ∈ commandTable cfg, ¬ buf <+: p.1) :
    dispatch cfg buf =
      if !cfg.NO_LOOKUP_VARIABLES ∧ (buf.headD NUL = '?' ∨ buf.headD NUL = '@') then Action.lookup
      else Action.unknown := by
  have key : ∀ nm : List Char, (strncmp buf nm buf.length = 0 ↔ buf <+: nm) :=
    fun nm => strncmp_eq_zero_iff buf nm hnul
  have n1 : ¬ buf <+: "go".toList :=
    hno ("go".toList, Action.resume) (by simp [commandTable])
  have n2 : (!cfg.NO_BACKTRACE) = true → ¬ buf <+: "backtrace".toList :=
    fun hf => hno ("backtrace".toList, Action.backtrace) (by
      have hf2 : cfg.NO_BACKTRACE = false := by simpa using hf
      simp [commandTable, hf2])
  have n3 : (!cfg.NO_PRINT_DATA) = true → ¬ buf <+: "data".toList :=
    fun hf => hno ("data".toList, Action.data) (by
      have hf2 : cfg.NO_PRINT_DATA = false := by simpa using hf
      simp [commandTable, hf2])
  have n4 : (!cfg.NO_PRINT_HEAP) = true → ¬ buf <+: "heap".toList :=
    fun hf => hno ("heap".toList, Action.heap) (by
      have hf2 : cfg.NO_PRINT_HEAP = false := by simpa using hf
      simp [commandTable, hf2])
  have n5 : (!cfg.NO_MEMORY_USAGE) = true → ¬ buf <+: "memory".toList :=
    fun hf => hno ("memory".toList, Action.memory) (by
      have hf2 : cfg.NO_MEMORY_USAGE = false := by simpa using hf
      simp [commandTable, hf2])
  have n6 : (!cfg.NO_PRINT_COMMANDS) = true → ¬ buf <+: "commands".toList :=
    fun hf => hno ("commands".toList, Action.commands) (by
      have hf2 : cfg.NO_PRINT_COMMANDS = false := by simpa using hf
      simp [commandTable, hf2])
  have n7 : (!cfg.NO_PRINT_COMMANDS) = true → ¬ buf <+: "help".toList :=
    fun hf => hno ("help".toList, Action.commands) (by
      have hf2 : cfg.NO_PRINT_COMMANDS = false := by simpa using hf
      simp [commandTable, hf2])
  have n8 : (!cfg.NO_PRINT_STACK) = true → ¬ buf <+: "stack".toList :=
    fun hf => hno ("stack".toList, Action.stack) (by
      have hf2 : cfg.NO_PRINT_STACK = false := by simpa using hf
      simp [commandTable, hf2])
  have n9 : (!cfg.NO_PRINT_VARIABLES) = true → ¬ buf <+: "variables".toList :=
    fun hf => hno ("variables".toList, Action.variables) (by
      have hf2 : cfg.NO_PRINT_VARIABLES = false := by simpa using hf
      simp [commandTable, hf2])
  have n10 : (!cfg.NO_QUIT) = true → ¬ buf <+: "quit".toList :=
    fun hf => hno ("quit".toList, Action.quit) (by
      have hf2 : cfg.NO_QUIT = false := by simpa using hf
      simp [commandTable, hf2])
  have n11 : (!cfg.NO_WHERE) = true → ¬ buf <+: "where".toList :=
    fun hf => hno ("where".toList, Action.location) (by
      have hf2 : cfg.NO_WHERE = false := by simpa using hf
      simp [commandTable, hf2])
  unfold dispatch
  simp only [key]
  rw [if_neg n1, if_neg (fun h => n2 h.1 h.2), if_neg (fun h => n3 h.1 h.2),
    if_neg (fun h => n4 h.1 h.2), if_neg (fun h => n5 h.1 h.2),
    if_neg (fun h => h.2.elim (n6 h.1) (n7 h.1)), if_neg (fun h => n8 h.1 h.2),
    if_neg (fun h => n9 h.1 h.2), if_neg (fun h => n10 h.1 h.2), if_neg (fun h => n11 h.1 h.2)]

/-- C16 (counterexample): a line of 32 times `a` matches no command and does not
begin with `?` or `@`, but it fills the 32-byte line buffer: the terminating zero
is stored at index 32, outside the buffer, so the behaviour is undefined from
there on; the session has written the echo and the line end only, no
`: unknown command`, and does not go on to a prompt. -/
theorem C16_long_line_overruns :
    stored (List.replicate 32 97) = List.replicate 32 'a' ∧
    (∀ p ∈ commandTable Config.default, ¬ List.replicate 32 'a' <+: p.1) ∧
    dispatch Config.default (List.replicate 32 'a') = Action.unknown ∧
    (runLoop Config.default demoPlatform 0x8F0 none 0 none (List.replicate 32 97 ++ [13]) []
      demoConsole).outcome = Outcome.undefined ∧
    (runLoop Config.default demoPlatform 0x8F0 none 0 none (List.replicate 32 97 ++ [13]) []
      demoConsole).d.out = List.replicate 32 'a' ++ newline ∧
    (readLine (List.replicate 32 97 ++ [13]) 0 [] []).map (fun r => r.writes.getLast?)
      = some (some (32, NUL)) := by
  decide

/-- C16 (amended): a non-empty typed line of at most 31 stored characters that is a
prefix of no name of the command table
and does not begin with `?` or `@` selects no branch: the session echoes the
line, writes the line again followed by `: unknown command` and the line end,
then the prompt, and goes on reading; the transport, the registry and the
observation log are the same in the console it continues with. -/
theorem C16_unknown_command (cfg : Config) (pf : Platform) (marker : Nat)
    (file : Option CString) (line : Int) (func : Option CString) (ks : List Int) (t : Int)
    (rest : List Int) (d : Debug)
    (hks : ∀ c ∈ ks, c ≠ 13 ∧ c ≠ 10) (hb : ∀ c ∈ ks, c < 256) (ht : t = 13 ∨ t = 10)
    (hne : stored ks ≠ []) (hlen : (stored ks).length ≤ 31)
    (hno : ∀ p ∈ commandTable cfg, ¬ stored ks <+: p.1)
    (hq : (stored ks).headD NUL ≠ '?' ∧ (stored ks).headD NUL ≠ '@') :
    dispatch cfg (stored ks) = Action.unknown ∧
    runLoop cfg pf marker file line func (ks ++ t :: rest) [] d =
      runLoop cfg pf marker file line func rest []
        (d.emit (stored ks ++ newline ++ stored ks ++ ": unknown command".toList ++ newline ++
          prompt)) ∧
    (d.emit (stored ks ++ newline ++ stored ks ++ ": unknown command".toList ++ newline ++
        prompt)).m_dev = d.m_dev ∧
    (d.emit (stored ks ++ newline ++ stored ks ++ ": unknown command".toList ++ newline ++
        prompt)).m_var = d.m_var ∧
    (d.emit (stored ks ++ newline ++ stored ks ++ ": unknown command".toList ++ newline ++
        prompt)).calls = d.calls := by
  have hnul : NUL ∉ stored ks := stored_no_NUL ks hb
  have hd : dispatch cfg (stored ks) = Action.unknown := by
    rw [dispatch_no_match cfg _ hnul hno]
    rw [if_neg]
    intro h
    rcases h.2 with h2 | h2
    · exact hq.1 h2
    · exact hq.2 h2
  refine ⟨hd, ?_, rfl, rfl, rfl⟩
  rw [runLoop_keys cfg pf marker file line func (t :: rest) ks [] d hks
      (by simp only [List.length_nil]; omega), List.nil_append,
    runLoop_eol cfg pf marker file line func t rest _ _ ht hne (by omega), hd]
  simp [exec, cstr_of_no_NUL _ hnul, List.append_assoc]

/-- C16 (witness): the typed line `foo` on the sample console. -/
theorem C16_unknown_command_witness :
    (runLoop Config.default demoPlatform 0x8F0 none 0 none ([102, 111, 111] ++ 13 :: []) []
      demoConsole).d.out = "foo\r\nfoo: unknown command\r\n(debug) ".toList :=
  (congrArg (fun r => r.d.out)
    (C16_unknown_command Config.default demoPlatform 0x8F0 none 0 none [102, 111, 111] 13 []
      demoConsole (by decide) (by decide) (by decide) (by decide) (by decide) (by decide)
      (by decide)).2.1).trans (by decide)

/-! ### C17 -/

/-- C17: `do_lookup_variables` returns `true` exactly when some registered
descriptor has the requested name, whatever the pointer flag and the sizes are.
With the pointer flag only the matching descriptors of pointer size are printed.
A typed line `?name` or `@name` selects the lookup branch, which writes the
lookup text and then the unknown-variable message exactly when no descriptor has
the name. -/
theorem C17_lookup_found_flag (cfg : Config) (pf : Platform) (marker : Nat)
    (file : Option CString) (line : Int) (func : Option CString) (c : Char) (name : List Char)
    (is_pointer : Bool) (d : Debug)
    (hn : NUL ∉ name) (hv : ∀ v ∈ d.m_var, NUL ∉ v.m_name)
    (hcfg : cfg.NO_LOOKUP_VARIABLES = false) (hc : c = '?' ∨ c = '@') :
    ((do_lookup_variables pf name is_pointer d.m_var).1 = true ↔
      ∃ v ∈ d.m_var, v.m_name = name) ∧
    (do_lookup_variables pf name true d.m_var).2 =
      (d.m_var.filter (fun v => decide (v.m_name = name ∧ v.m_size = sizeof_ptr))).flatMap
        (fun v => v.print pf true) ∧
    dispatch cfg (c :: name) = Action.lookup ∧
    (exec cfg pf marker file line func (c :: name) d Action.lookup).2.out =
      d.out ++ ((do_lookup_variables pf name (c == '@') d.m_var).2 ++
        (if ∃ v ∈ d.m_var, v.m_name = name then []
          else name ++ ": unknown variable".toList ++ newline)) := by
  refine ⟨?_, ?_, dispatch_lookup cfg c name hcfg hc, ?_⟩
  · rw [do_lookup_variables_eq pf name is_pointer hn d.m_var hv]
    simp [List.any_eq_true]
  · rw [do_lookup_variables_eq pf name true hn d.m_var hv]
    simp
  · rw [exec_lookup cfg pf marker file line func c name d hn hv]
    rfl

/-- C17 (witness): on the sample registry `@x` finds the name `x`, prints only the
pointer-sized descriptor, and writes no unknown-variable message. -/
theorem C17_lookup_found_flag_witness :
    (exec Config.default demoPlatform2 0x8F0 none 0 none ('@' :: "x".toList) demoConsole2
        Action.lookup).2.out =
      ("loop:x@0x8F0=>0xA: 00 00 00 00 00 00 00 00 00 00 00 00 00 00 00 00\r\n").toList :=
  (C17_lookup_found_flag Config.default demoPlatform2 0x8F0 none 0 none '@' "x".toList true
    demoConsole2 (by decide) (by decide) rfl (Or.inr rfl)).2.2.2.trans (by decide)

/-! ### C18 -/

theorem transitions_cons (func : Nat) (v : Variable) (vars : List Variable) :
    transitions func (v :: vars) =
      if func ≠ v.m_func.addr then v :: transitions v.m_func.addr vars
      else transitions v.m_func.addr vars := by
  unfold transitions
  simp only [List.map_cons, List.zip_cons_cons, List.filter_cons]
  by_cases h : func ≠ v.m_func.addr
  · simp [h]
  · simp [h]

theorem do_backtrace_eq : ∀ (vars : List Variable) (func : Nat),
    do_backtrace func vars = (transitions func vars).flatMap backtraceLine := by
  intro vars
  induction vars with
  | nil => intro func; rfl
  | cons v vars ih =>
    intro func
    rw [do_backtrace, transitions_cons]
    by_cases h : func ≠ v.m_func.addr
    · rw [if_pos h, if_pos h, ih, List.flatMap_cons]
      simp [backtraceLine, List.append_assoc]
    · rw [if_neg h, if_neg h, ih]
      have e : func = v.m_func.addr := by simpa using h
      rw [e]

/-- C18: `do_backtrace` walks the registry from the most recently registered
descriptor and writes one line for each descriptor whose owning function (the
value of the `m_func` pointer) differs from that of the descriptor before it in
the walk, the first being compared with the entry function of the session, and
nothing for the others; so the lines are as many as the transitions, and
descriptors that follow one of the same function add no line.  Null pointers
compare equal, so a descriptor without a function adds no line under a session
without an entry function.  The `backtrace` command writes the marker line of the
entry function and then this walk. -/
theorem C18_backtrace_transitions (cfg : Config) (pf : Platform) (marker : Nat)
    (file : Option CString) (line : Int) (func : Option CString) (buf : List Char) (d : Debug)
    (entry : Nat) (vars : List Variable) (v : Variable) :
    do_backtrace entry vars = (transitions entry vars).flatMap backtraceLine ∧
    transitions entry (v :: vars) =
      (if entry ≠ v.m_func.addr then [v] else []) ++ transitions v.m_func.addr vars ∧
    transitions entry [] = [] ∧
    (v.m_func.addr = NULL → do_backtrace (ptrValue none) [v] = []) ∧
    (exec cfg pf marker file line func buf d Action.backtrace).2.out =
      d.out ++ ("0x".toList ++ printLong (toInt16 (Int.ofNat marker)) HEX ++ [':'] ++
        printStr func ++ newline ++
        (transitions (ptrValue func) d.m_var).flatMap backtraceLine) := by
  refine ⟨do_backtrace_eq vars entry, ?_, rfl, ?_, ?_⟩
  · rw [transitions_cons]
    split <;> rfl
  · intro h
    simp [do_backtrace, ptrValue, h]
  · simp only [exec, Debug.emit_out]
    rw [do_backtrace_eq]
    rfl

/-- C18 (witness): on the sample registry entered from `loop` the walk writes one
line for the descriptors of `f` and one for the descriptor of `loop` after them;
a descriptor with a null function under a null entry function writes nothing. -/
theorem C18_backtrace_transitions_witness :
    do_backtrace 2 demoRegistry = "0x8D0:f\r\n0x8E8:loop\r\n".toList ∧
    do_backtrace (ptrValue none) [⟨0x8E8, ⟨0, []⟩, "x".toList, 0x8F0, 2⟩] = [] :=
  ⟨by decide,
    (C18_backtrace_transitions Config.default demoPlatform 0x8F0 none 0 none [] demoConsole 0 []
      ⟨0x8E8, ⟨0, []⟩, "x".toList, 0x8F0, 2⟩).2.2.2.1 rfl⟩

/-! ### C19 -/

set_option maxRecDepth 100000 in
theorem default_table_agrees :
    ∀ p ∈ commandTable Config.default, ∀ buf ∈ p.1.inits,
      buf ≠ [] → buf ≠ "h".toList → buf ≠ "he".toList →
      dispatchedCommand Config.default buf = prefixMatch Config.default buf := by
  decide

set_option maxRecDepth 100000 in
theorem default_table_shared :
    ∀ p ∈ commandTable Config.default, ∀ q ∈ commandTable Config.default, p.1 ≠ q.1 →
      ∀ buf ∈ p.1.inits, buf <+: q.1 → buf ≠ [] → buf = "h".toList ∨ buf = "he".toList := by
  decide

/-- C19: in the default configuration the first-match chain of `Debug::run` selects
the same command as unambiguous-prefix matching for every non-empty line other
than `h` and `he`; these two are the only non-empty lines that are a prefix of
two different command names, unambiguous-prefix matching selects nothing for
them, and the chain runs the heap dump for both. -/
theorem C19_first_match_or_shared_name (buf : List Char) :
    (buf ≠ [] → NUL ∉ buf → buf ≠ "h".toList → buf ≠ "he".toList →
      dispatchedCommand Config.default buf = prefixMatch Config.default buf) ∧
    (buf ≠ [] →
      ((∃ p ∈ commandTable Config.default, ∃ q ∈ commandTable Config.default,
          p.1 ≠ q.1 ∧ buf <+: p.1 ∧ buf <+: q.1) ↔
        (buf = "h".toList ∨ buf = "he".toList))) ∧
    dispatch Config.default "h".toList = Action.heap ∧
    dispatch Config.default "he".toList = Action.heap ∧
    prefixMatch Config.default "h".toList = none ∧
    prefixMatch Config.default "he".toList = none := by
  refine ⟨?_, ?_, by decide, by decide, by decide, by decide⟩
  · intro hne hnul h1 h2
    by_cases hex : ∃ p ∈ commandTable Config.default, buf <+: p.1
    · obtain ⟨p, hp, hpre⟩ := hex
      exact default_table_agrees p hp buf ((List.mem_inits _ _).mpr hpre) hne h1 h2
    · have hno : ∀ p ∈ commandTable Config.default, ¬ buf <+: p.1 :=
        fun p hp hpre => hex ⟨p, hp, hpre⟩
      have hf : (commandTable Config.default).filter (fun p => decide (buf <+: p.1)) = [] := by
        rw [List.filter_eq_nil_iff]
        intro p hp
        simpa using hno p hp
      have hd := dispatch_no_match Config.default buf hnul hno
      unfold dispatchedCommand prefixMatch
      rw [hf, hd]
      split_ifs <;> rfl
  · intro hne
    constructor
    · rintro ⟨p, hp, q, hq, hpq, h1, h2⟩
      exact default_table_shared p hp q hq hpq buf ((List.mem_inits _ _).mpr h1) h2 hne
    · rintro (rfl | rfl)
      · exact ⟨("heap".toList, Action.heap), by decide, ("help".toList, Action.commands),
          by decide, by decide, by decide, by decide⟩
      · exact ⟨("heap".toList, Action.heap), by decide, ("help".toList, Action.commands),
          by decide, by decide, by decide, by decide⟩

/-- C19 (witness): the line `hel` is a prefix of `help` only, and the chain runs
the help command for it. -/
theorem C19_first_match_or_shared_name_witness :
    dispatchedCommand Config.default "hel".toList = prefixMatch Config.default "hel".toList ∧
    prefixMatch Config.default "hel".toList = some Action.commands :=
  ⟨(C19_first_match_or_shared_name "hel".toList).1 (by decide) (by decide) (by decide)
    (by decide), by decide⟩

/-! ### C20 -/

/-- C20 (the code at the failing input): built with `DEBUG_NO_PRINT_VARIABLES`
alone, the help command is present and its text lists `variables`, but the chain
has no `variables` test: the typed line `variables` is answered with
`variables: unknown command` and no handler runs.  In the default configuration
every listed name is accepted. -/
theorem C20_help_lists_removed_command :
    noPrintVariables.NO_PRINT_COMMANDS = false ∧
    helpNames noPrintVariables =
      ["backtrace".toList, "data".toList, "go".toList, "heap".toList, "memory".toList,
        "quit".toList, "stack".toList, "variables".toList, "where".toList] ∧
    dispatch noPrintVariables "variables".toList = Action.unknown ∧
    (runLoop noPrintVariables demoPlatform 0x8F0 none 0 none
        [118, 97, 114, 105, 97, 98, 108, 101, 115, 13] [] demoConsole).d.out
      = "variables\r\nvariables: unknown command\r\n(debug) ".toList ∧
    (runLoop noPrintVariables demoPlatform 0x8F0 none 0 none
        [118, 97, 114, 105, 97, 98, 108, 101, 115, 13] [] demoConsole).d.calls = [] ∧
    (∀ n ∈ helpNames Config.default,
      dispatch Config.default n ≠ Action.unknown ∧ dispatch Config.default n ≠ Action.lookup) := by
  decide

/-! ### C21 -/

theorem readLine_keys (t : Int) (rest : List Int) (ht : t = 13 ∨ t = 10) :
    ∀ (ks : List Int) (bp : Nat) (writes : List (Nat × Char)) (out : List Char),
      (∀ c ∈ ks, c ≠ 13 ∧ c ≠ 10) →
      readLine (ks ++ t :: rest) bp writes out =
        some ⟨writes ++ (stored ks).enumFrom bp ++ [(bp + (stored ks).length, NUL)],
          out ++ stored ks ++ newline, bp + (stored ks).length, rest⟩ := by
  intro ks
  induction ks with
  | nil =>
    intro bp writes out _
    simp [readLine, ht, stored_nil]
  | cons c ks ih =>
    intro bp writes out hk
    have hc := hk c (List.mem_cons_self _ _)
    have hks : ∀ x ∈ ks, x ≠ 13 ∧ x ≠ 10 := fun x hx => hk x (List.mem_cons_of_mem _ hx)
    have h1 : ¬ (c = 13 ∨ c = 10) := by tauto
    rw [List.cons_append, readLine, if_neg h1, stored_cons]
    by_cases hpos : c > 0
    · rw [if_pos hpos, if_pos hpos, ih _ _ _ hks]
      simp only [List.enumFrom_cons, List.length_cons, List.append_assoc, List.cons_append,
        List.nil_append, List.singleton_append]
      have e : bp + 1 + (stored ks).length = bp + ((stored ks).length + 1) := by omega
      rw [e]
    · rw [if_neg hpos, if_neg hpos, ih _ _ _ hks]

theorem enumFrom_index_lt {α : Type} : ∀ (l : List α) (n : Nat) (w : Nat × α),
    w ∈ l.enumFrom n → w.1 < n + l.length := by
  intro l
  induction l with
  | nil => intro n w h; simp at h
  | cons a l ih =>
    intro n w h
    rw [List.enumFrom_cons] at h
    rcases List.mem_cons.mp h with rfl | h
    · simp
    · have := ih (n + 1) w h
      simp only [List.length_cons]
      omega

/-- C21: reading one line, `Debug::run` stores exactly the received values above
zero that come before the first carriage return or line feed, each converted to
`char`, at the indices 0, 1, 2, ... of the buffer, echoes each stored character
once and nothing for the values it skips, then writes the line end and the
terminating zero at index `len`.  For a line of at most 31 stored characters
every store, the terminating zero included, is at an index below `BUF_MAX = 32`,
and the session loop goes on with that line; with 32 or more stored characters a
store lands at index 32 or above. -/
theorem C21_line_buffer (cfg : Config) (pf : Platform) (marker : Nat) (file : Option CString)
    (line : Int) (func : Option CString) (ks : List Int) (t : Int) (rest : List Int) (d : Debug)
    (hks : ∀ c ∈ ks, c ≠ 13 ∧ c ≠ 10) (ht : t = 13 ∨ t = 10) :
    stored ks = (ks.filter (fun c => decide (c > 0))).map toChar ∧
    readLine (ks ++ t :: rest) 0 [] [] =
      some ⟨(stored ks).enum ++ [((stored ks).length, NUL)], stored ks ++ newline,
        (stored ks).length, rest⟩ ∧
    ((stored ks).length ≤ 31 →
      ∀ w ∈ (stored ks).enum ++ [((stored ks).length, NUL)], w.1 < BUF_MAX) ∧
    ((stored ks).length ≤ 31 →
      runLoop cfg pf marker file line func (ks ++ t :: rest) [] d =
        runLoop cfg pf marker file line func (t :: rest) (stored ks) (d.emit (stored ks))) ∧
    (32 ≤ (stored ks).length →
      ∃ w ∈ (stored ks).enum ++ [((stored ks).length, NUL)], BUF_MAX ≤ w.1) := by
  refine ⟨rfl, ?_, ?_, ?_, ?_⟩
  · have h := readLine_keys t rest ht ks 0 [] [] hks
    simpa [List.enum] using h
  · intro hlen w hw
    rcases List.mem_append.mp hw with h | h
    · have := enumFrom_index_lt (stored ks) 0 w h
      simp only [BUF_MAX]
      omega
    · simp only [List.mem_singleton] at h
      subst h
      simp only [BUF_MAX]
      omega
  · intro hlen
    have h := runLoop_keys cfg pf marker file line func (t :: rest) ks [] d hks
      (by simp only [List.length_nil]; omega)
    rw [h, List.nil_append]
  · intro hlen
    exact ⟨((stored ks).length, NUL), by simp, hlen⟩

/-- C21 (witness): the values `h`, -1, 0, `i`, CR, `x` store `h` and `i` at indices
0 and 1 and the terminating zero at index 2, echo `hi`, and leave `x` unread. -/
theorem C21_line_buffer_witness :
    readLine ([104, -1, 0, 105] ++ 13 :: [120]) 0 [] [] =
      some ⟨[(0, 'h'), (1, 'i'), (2, NUL)], "hi\r\n".toList, 2, [120]⟩ :=
  ((C21_line_buffer Config.default demoPlatform 0x8F0 none 0 none [104, -1, 0, 105] 13 [120]
    demoConsole (by decide) (by decide)).2.1).trans (by decide)

end ArduinoDebug
